import Mathlib

set_option autoImplicit false

/- Shallow embedding of the polyhedron topology store (`Grid`), the puzzle
overlay (`PuzzleGrid`) and the Slitherlink solution checker of the
slitherlink3D repository (files Grid.js, PuzzleGrid.js, Vertex.js, Edge.js,
Face.js, constants.js, geometry.js).

Modelling conventions.  JavaScript `Map`s are association lists kept in
insertion order: `Map.set` overwrites the first entry with the given key in
place and appends an unknown key at the end, `Map.get` returns the first
entry with the key, iteration is list order, `Map.size` is the number of
entries.  JavaScript `Set`s of numbers are duplicate-free lists in insertion
order.  JavaScript exceptions are modelled with `Except`: every stateful
operation returns its (possibly partially mutated) state next to the
`Except` result, because mutations performed before a `throw` persist in
JavaScript.  Numeric vertex/edge/face IDs are `Nat`; clue values are `Int`
(the sentinel -1 means "no clue").  THREE.js positions, colors and meshes
carry no topological information; positions are dropped, and the material
color of each edge mesh (`edgeMeshMap`) is kept as an abstract `JsColor`
per edge ID so that the highlighting operations can be stated. -/

namespace Slither

/-- Model of `Map.get`: value of the first entry with the given key. -/
def alGet {α : Type} : List (Nat × α) → Nat → Option α
  | [], _ => none
  | (k, v) :: rest, key => if k = key then some v else alGet rest key

/-- Model of `Map.set`: overwrite the first entry with the key, else append. -/
def alSet {α : Type} : List (Nat × α) → Nat → α → List (Nat × α)
  | [], key, val => [(key, val)]
  | (k, v) :: rest, key, val =>
    if k = key then (k, val) :: rest else (k, v) :: alSet rest key val

/-- Model of `Map.has`. -/
def alHasKey {α : Type} (l : List (Nat × α)) (key : Nat) : Bool :=
  (alGet l key).isSome

/-- Model of `Set.add` for a set of numbers kept as a duplicate-free list. -/
def sAdd (l : List Nat) (x : Nat) : List Nat :=
  if x ∈ l then l else l ++ [x]

/-- Equality on `Except` results is decidable when it is on both
components. -/
instance instDecEqExcept {e a : Type} [DecidableEq e] [DecidableEq a] : DecidableEq (Except e a)
  | .error e1, .error e2 =>
    if h : e1 = e2 then .isTrue (h ▸ rfl) else .isFalse fun hc => h (by injection hc)
  | .error _, .ok _ => .isFalse fun hc => Except.noConfusion hc
  | .ok _, .error _ => .isFalse fun hc => Except.noConfusion hc
  | .ok a1, .ok a2 =>
    if h : a1 = a2 then .isTrue (h ▸ rfl) else .isFalse fun hc => h (by injection hc)

/-- Color assigned to a THREE.js edge-mesh material.  The named constructors
are the entries of `EDGE_COLORS` in constants.js; `rawNumber` records a plain
JavaScript number assigned where a color is expected. -/
inductive JsColor
  | unknownColor
  | filledInColor
  | ruledOutColor
  | errorColor
  | solutionColor
  | rawNumber (n : Nat)
  deriving DecidableEq, Repr

/-- Display color of a user-guess state: `EDGE_COLORS[EDGE_STATES[guess]]`
with `EDGE_STATES = ['unknown', 'filledIn', 'ruledOut']` (constants.js), as
used by `createEdgeGeometry` and `cycleEdgeState`.  A guess outside 0..2
indexes off the end of `EDGE_STATES`; that junk case never arises. -/
def displayColorOfGuess (guess : Nat) : JsColor :=
  match guess with
  | 0 => .unknownColor
  | 1 => .filledInColor
  | 2 => .ruledOutColor
  | _ => .rawNumber 999

/-- JavaScript errors thrown by the grid and puzzle-overlay operations.
`typeError` stands for a TypeError from a property access on
null/undefined; the other constructors stand for the `throw new Error(...)`
sites, carrying the data interpolated into the message. -/
inductive JsErr
  | typeError
  | noPuzzleData
  | gridMismatch (expected got : String)
  | invalidPuzzleIndex (idx : Nat)
  | missingClues
  | cluesTooLong (len numFaces : Nat)
  | invalidClue (faceIndex : Nat) (clue : Int)
  | missingSolution
  | badSolutionLength (len numVertices : Nat)
  | duplicateSolutionVertices
  | unknownSolutionVertex (v : Nat)
  | missingSolutionEdge (v1 v2 : Nat)
  | degenerateFace (faceIndex len : Nat)
  deriving DecidableEq, Repr

/-- Vertex record (Vertex.js).  The THREE.js `position` is irrelevant to the
topology and the checker and is dropped; `metadata` of a vertex is unused. -/
structure Vertex where
  edgeIDs : List Nat
  faceIDs : List Nat
  deriving DecidableEq, Repr

/-- Edge record (Edge.js).  `vertexIDs` is the two-element array `[v1, v2]`;
`userGuess` is `metadata.userGuess` (0=unknown, 1=filled in, 2=ruled out).
`addEdge` leaves `metadata.userGuess` undefined and `createPolyhedron` later
sets it to 0; `undefined` and 0 behave identically in every comparison
(`=== 1`, `=== 2`) the embedded operations make, so the field starts at 0. -/
structure Edge where
  v1 : Nat
  v2 : Nat
  faceIDs : List Nat
  userGuess : Nat
  deriving DecidableEq, Repr

/-- Face record (Face.js) with the puzzle-relevant metadata fields
(`metadata.index`, `metadata.clue`); the color/highlight metadata is
irrelevant to the claims and dropped. -/
structure Face where
  vertexIDs : List Nat
  edgeIDs : List Nat
  index : Nat
  clue : Int
  deriving DecidableEq, Repr

/-- One puzzle of a puzzle file: `clues` and `solution` are `none` when the
field is missing or not an array. -/
structure Puzzle where
  clues : Option (List Int)
  solution : Option (List Nat)
  deriving DecidableEq, Repr

/-- Puzzle data as loaded from a puzzle JSON file. -/
structure PuzzleData where
  gridId : String
  puzzles : List Puzzle
  deriving DecidableEq, Repr

/-- State of a `PuzzleGrid` (PuzzleGrid.js extending Grid.js): the three
topology maps, the vertex-pair edge index, the ID counter, the puzzle
overlay fields, and the material colors of the edge meshes
(`edgeMeshMap`, keyed by edge ID). -/
structure PuzzleGrid where
  vertices : List (Nat × Vertex)
  edges : List (Nat × Edge)
  faces : List (Nat × Face)
  vertexPairToEdge : List (Nat × Nat)
  nextId : Nat
  puzzleData : Option PuzzleData
  currentPuzzleIndex : Nat
  gridId : Option String
  edgeMeshColors : List (Nat × JsColor)
  deriving DecidableEq, Repr

/-- State of a freshly constructed `PuzzleGrid`. -/
def emptyPuzzleGrid : PuzzleGrid :=
  ⟨[], [], [], [], 0, none, 0, none, []⟩

/-- Hash of an unordered vertex pair (`Grid._hashVertexPair`): order the two
IDs and combine `(small << 16) | large`.  For IDs in the documented supported
range 0..65535 the JavaScript expression produces the 32-bit pattern
`small * 2^16 + large` (reinterpreted as a signed number, which is a
bijection on patterns and therefore irrelevant to Map-key equality), so the
hash is modelled arithmetically. -/
def hashVertexPair (v1Id v2Id : Nat) : Nat :=
  if v1Id < v2Id then v1Id * 65536 + v2Id else v2Id * 65536 + v1Id

/-- Lookup of an edge by its two endpoints (`Grid.findEdgeByVertices`);
`result ?? null` is the `Option` itself. -/
def findEdgeByVertices (g : PuzzleGrid) (v1Id v2Id : Nat) : Option Nat :=
  alGet g.vertexPairToEdge (hashVertexPair v1Id v2Id)

/-- Registration of a vertex (`Grid.addVertex`); the position argument is
dropped, the metadata bag is empty. -/
def addVertex (g : PuzzleGrid) (id : Nat) : PuzzleGrid :=
  { g with vertices := alSet g.vertices id ⟨[], []⟩ }

/-- Creation of an edge (`Grid.addEdge`), mirroring the statement order of
the source: allocate the ID, store the edge record, store the pair-index
entry, then add the edge to each endpoint's incidence set.  The last two
steps throw a TypeError when the endpoint is not registered
(`this.vertices.get(v1Id).edgeIDs.add(id)`), and by then the edge record
and the index entry are already in place. -/
def addEdge (g0 : PuzzleGrid) (v1Id v2Id guess : Nat) : Except JsErr Nat × PuzzleGrid :=
  let id := g0.nextId
  let g1 := { g0 with nextId := id + 1 }
  let g2 := { g1 with edges := alSet g1.edges id ⟨v1Id, v2Id, [], guess⟩ }
  let g3 := { g2 with vertexPairToEdge := alSet g2.vertexPairToEdge (hashVertexPair v1Id v2Id) id }
  match alGet g3.vertices v1Id with
  | none => (.error .typeError, g3)
  | some vx1 =>
    let g4 := { g3 with vertices := alSet g3.vertices v1Id { vx1 with edgeIDs := sAdd vx1.edgeIDs id } }
    match alGet g4.vertices v2Id with
    | none => (.error .typeError, g4)
    | some vx2 =>
      (.ok id, { g4 with vertices := alSet g4.vertices v2Id { vx2 with edgeIDs := sAdd vx2.edgeIDs id } })

/-- Edge-resolution step of `Grid.addFace` (its loop body): look the edge up
in the vertex-pair index and create it only when absent.  This is the
"ensure edge exists" operation of the specification. -/
def ensureEdge (g : PuzzleGrid) (v1Id v2Id : Nat) : Except JsErr Nat × PuzzleGrid :=
  match findEdgeByVertices g v1Id v2Id with
  | some eid => (.ok eid, g)
  | none => addEdge g v1Id v2Id 0

/-- Edge loop of `Grid.addFace`: for each index `i` of the cyclic vertex
list, resolve or create the edge from vertex `i` to vertex `i+1 mod n`,
collect its ID, and register the face in the edge's face-incidence set
(`this.edges.get(edgeId).faceIDs.add(id)`). -/
def addFaceEdges (vertexIDs : List Nat) (id : Nat) :
    PuzzleGrid → List Nat → List Nat → Except JsErr (List Nat) × PuzzleGrid
  | g, acc, [] => (.ok acc, g)
  | g, acc, i :: rest =>
    let v1 := vertexIDs.getD i 0
    let v2 := vertexIDs.getD ((i + 1) % vertexIDs.length) 0
    match ensureEdge g v1 v2 with
    | (.error err, g1) => (.error err, g1)
    | (.ok eid, g1) =>
      match alGet g1.edges eid with
      | none => (.error .typeError, g1)
      | some e =>
        let g2 := { g1 with edges := alSet g1.edges eid { e with faceIDs := sAdd e.faceIDs id } }
        addFaceEdges vertexIDs id g2 (acc ++ [eid]) rest

/-- Final loop of `Grid.addFace`: register the face in each vertex's
face-incidence set (`this.vertices.get(vId).faceIDs.add(id)`), throwing a
TypeError on an unregistered vertex. -/
def addFaceVerts (id : Nat) : PuzzleGrid → List Nat → Except JsErr Unit × PuzzleGrid
  | g, [] => (.ok (), g)
  | g, v :: rest =>
    match alGet g.vertices v with
    | none => (.error .typeError, g)
    | some vx =>
      addFaceVerts id { g with vertices := alSet g.vertices v { vx with faceIDs := sAdd vx.faceIDs id } } rest

/-- Addition of a face (`Grid.addFace`).  The metadata arguments `index` and
`clue` are the fields `metadata.index` and `metadata.clue` that
`createPolyhedron` passes (`index: i, clue: -1`).  There is no check on the
number of vertex IDs. -/
def addFace (g : PuzzleGrid) (vertexIDs : List Nat) (index : Nat) (clue : Int) (id : Nat) :
    Except JsErr Unit × PuzzleGrid :=
  match addFaceEdges vertexIDs id g [] (List.range vertexIDs.length) with
  | (.error err, g1) => (.error err, g1)
  | (.ok edgeIDs, g1) =>
    let g2 := { g1 with faces := alSet g1.faces id ⟨vertexIDs, edgeIDs, index, clue⟩ }
    addFaceVerts id g2 vertexIDs

/-- Loop of `createPolyhedron` (geometry.js) over the face array: reject a
face with fewer than 3 vertices (`throw new Error('Face ${i}: must have at
least 3 vertices...')`) before calling `grid.addFace(face, {..., index: i,
clue: -1}, i)`. -/
def buildFaces : PuzzleGrid → List (List Nat) → Nat → Except JsErr PuzzleGrid
  | g, [], _ => .ok g
  | g, face :: rest, i =>
    if face.length < 3 then .error (.degenerateFace i face.length)
    else
      match addFace g face i (-1) i with
      | (.error err, _) => .error err
      | (.ok _, g1) => buildFaces g1 rest (i + 1)

/-- Topology-building part of `createPolyhedron` (geometry.js): register the
vertices under their array indices, then add the faces under their array
indices.  The pass that afterwards sets every edge's `metadata.userGuess`
to 0 is a no-op in the model, where the field already starts at 0. -/
def createPolyhedron (numVertices : Nat) (faces : List (List Nat)) : Except JsErr PuzzleGrid :=
  buildFaces ((List.range numVertices).foldl (fun g i => addVertex g i) emptyPuzzleGrid) faces 0

/-- Observable effect of `createEdgeGeometry` plus `setupCrossReferences`:
every edge gets a mesh whose material color is the display color of its
current user-guess state (`EDGE_COLORS[EDGE_STATES[edge.metadata.userGuess]]`). -/
def setupEdgeMeshes (g : PuzzleGrid) : PuzzleGrid :=
  { g with edgeMeshColors := g.edges.map (fun p => (p.1, displayColorOfGuess p.2.userGuess)) }

/-- Storage of puzzle data (`PuzzleGrid.setPuzzleData`), mirroring the
statement order of the source: `this.puzzleData = puzzleData` happens first,
then the grid-ID check (`expectedGridId && puzzleData.gridId !==
expectedGridId`, where the empty string is falsy), then `this.gridId =
puzzleData.gridId`. -/
def setPuzzleData (g : PuzzleGrid) (pd : PuzzleData) (expectedGridId : Option String) :
    Except JsErr Unit × PuzzleGrid :=
  let g1 := { g with puzzleData := some pd }
  match expectedGridId with
  | some s =>
    if s ≠ "" ∧ pd.gridId ≠ s then (.error (.gridMismatch s pd.gridId), g1)
    else (.ok (), { g1 with gridId := some pd.gridId })
  | none => (.ok (), { g1 with gridId := some pd.gridId })

/-- Selection of the current puzzle (`PuzzleGrid.setCurrentPuzzle`).  The
index is a `Nat`, so the `puzzleIndex < 0` branch of the source cannot
fire. -/
def setCurrentPuzzle (g : PuzzleGrid) (puzzleIndex : Nat) : Except JsErr Unit × PuzzleGrid :=
  match g.puzzleData with
  | none => (.error .noPuzzleData, g)
  | some pd =>
    if puzzleIndex ≥ pd.puzzles.length then (.error (.invalidPuzzleIndex puzzleIndex), g)
    else (.ok (), { g with currentPuzzleIndex := puzzleIndex })

/-- Access to the current puzzle (`PuzzleGrid.getCurrentPuzzle`): throws when
no puzzle data is set, and otherwise returns
`this.puzzleData.puzzles[this.currentPuzzleIndex]`, which is `none`
(JavaScript `undefined`) when the index is out of range — the source
performs no bounds check here. -/
def getCurrentPuzzle (g : PuzzleGrid) : Except JsErr (Option Puzzle) :=
  match g.puzzleData with
  | none => .error .noPuzzleData
  | some pd => .ok (pd.puzzles.get? g.currentPuzzleIndex)

/-- Face loop of `applyCurrentPuzzleClues`: look up
`clues[face.metadata.index]` (or -1 past the end of the clues array),
validate a present clue, and store it in `face.metadata.clue`.  An error
aborts the iteration, keeping the mutations already made to earlier faces.
`Number.isInteger(clue)` always holds for an `Int`-valued clue. -/
def applyCluesLoop (cs : List Int) : List (Nat × Face) → Except JsErr Unit × List (Nat × Face)
  | [] => (.ok (), [])
  | (fid, face) :: rest =>
    let clue := cs.getD face.index (-1)
    if clue ≠ -1 ∧ (clue < 0 ∨ clue > (face.edgeIDs.length : Int)) then
      (.error (.invalidClue face.index clue), (fid, face) :: rest)
    else
      let r := applyCluesLoop cs rest
      (r.1, (fid, { face with clue := clue }) :: r.2)

/-- Application of the current puzzle's clues to the faces
(`PuzzleGrid.applyCurrentPuzzleClues`).  When `currentPuzzleIndex` is out of
range the source dereferences `undefined.clues`, a TypeError. -/
def applyCurrentPuzzleClues (g : PuzzleGrid) : Except JsErr Unit × PuzzleGrid :=
  match g.puzzleData with
  | none => (.error .noPuzzleData, g)
  | some pd =>
    match pd.puzzles.get? g.currentPuzzleIndex with
    | none => (.error .typeError, g)
    | some puzzle =>
      match puzzle.clues with
      | none => (.error .missingClues, g)
      | some cs =>
        if cs.length > g.faces.length then (.error (.cluesTooLong cs.length g.faces.length), g)
        else
          let r := applyCluesLoop cs g.faces
          (r.1, { g with faces := r.2 })

/-- Validation of the loaded reference solution
(`PuzzleGrid.validatePuzzleSolution`): solution present, length in
`[3, number of vertices]`, no duplicates (`new Set(solution).size`),
every vertex registered, and every consecutive pair — wrapping around via
`(i + 1) % solution.length` — connected by an edge.  The function mutates
nothing, so only the `Except` result is returned. -/
def validatePuzzleSolution (g : PuzzleGrid) : Except JsErr Unit :=
  match g.puzzleData with
  | none => .error .noPuzzleData
  | some pd =>
    match pd.puzzles.get? g.currentPuzzleIndex with
    | none => .error .typeError
    | some puzzle =>
      match puzzle.solution with
      | none => .error .missingSolution
      | some sol =>
        if sol.length < 3 ∨ sol.length > g.vertices.length then
          .error (.badSolutionLength sol.length g.vertices.length)
        else if ¬ sol.Nodup then .error .duplicateSolutionVertices
        else
          match sol.find? (fun v => ! alHasKey g.vertices v) with
          | some v => .error (.unknownSolutionVertex v)
          | none =>
            match (List.range sol.length).find? (fun i =>
                (findEdgeByVertices g (sol.getD i 0) (sol.getD ((i + 1) % sol.length) 0)).isNone) with
            | some i =>
              .error (.missingSolutionEdge (sol.getD i 0) (sol.getD ((i + 1) % sol.length) 0))
            | none => .ok ()

/-- Count of filled-in and ruled-out guesses among the given edge IDs
(`PuzzleGrid.countGuesses`); an ID missing from the edge map is skipped
(`if (edge)`). -/
def countGuesses (g : PuzzleGrid) : List Nat → Nat × Nat
  | [] => (0, 0)
  | eid :: rest =>
    let p := countGuesses g rest
    match alGet g.edges eid with
    | none => p
    | some e =>
      (if e.userGuess = 1 then p.1 + 1 else p.1, if e.userGuess = 2 then p.2 + 1 else p.2)

/-- Reset of the edge-mesh colors (`PuzzleGrid.clearEdgeHighlights`): for
every edge mesh, `edgeMesh.material.color = edge.metadata.userGuess` — the
raw user-guess NUMBER, not a color (the doc comment of the source promises
"their user guess color").  An edge ID in the mesh map but absent from the
edge map would be a TypeError in the source; the mesh map is built from the
edge map, so the model keeps such an entry unchanged instead. -/
def clearEdgeHighlights (g : PuzzleGrid) : PuzzleGrid :=
  { g with edgeMeshColors := g.edgeMeshColors.map (fun p =>
      match alGet g.edges p.1 with
      | some e => (p.1, JsColor.rawNumber e.userGuess)
      | none => p) }

/-- Error highlighting of one edge (`PuzzleGrid.highlightEdgeError`): clear
all highlights unless already done, then set the given mesh's color to
`EDGE_COLORS.error` — a TypeError when no mesh was passed
(`edgeMesh.material` on null). -/
def highlightEdgeError (g : PuzzleGrid) (edgeMesh : Option Nat) (clearedEdgeHighlights : Bool) :
    Except JsErr Bool × PuzzleGrid :=
  let g1 := if clearedEdgeHighlights then g else clearEdgeHighlights g
  match edgeMesh with
  | none => (.error .typeError, g1)
  | some eid => (.ok true, { g1 with edgeMeshColors := alSet g1.edgeMeshColors eid .errorColor })

/-- Vertex loop of `checkUserSolution`: flag any vertex with more than two
filled incident edges and highlight the toggled edge.  The loop state is
(`status === 1`, `clearedEdgeHighlights`).  The IDs passed in always come
from the vertex map or from an edge's endpoints, so a missing vertex is
skipped rather than crashed on. -/
def vertexLoop (edgeMesh : Option Nat) :
    PuzzleGrid → List Nat → Bool → Bool → Except JsErr (Bool × Bool) × PuzzleGrid
  | g, [], failed, cleared => (.ok (failed, cleared), g)
  | g, vId :: rest, failed, cleared =>
    match alGet g.vertices vId with
    | none => vertexLoop edgeMesh g rest failed cleared
    | some vx =>
      if (countGuesses g vx.edgeIDs).1 > 2 then
        match highlightEdgeError g edgeMesh cleared with
        | (.ok _, g1) => vertexLoop edgeMesh g1 rest true true
        | (.error err, g1) => (.error err, g1)
      else vertexLoop edgeMesh g rest failed cleared

/-- Face loop of `checkUserSolution`: skip clueless faces; in active mode
`numEdgesFilled !== clue` already fails, then `numEdgesFilled > clue`, then
`numEdges - numEdgesRuledOut < clue`, where `numEdges` is
`face.vertexIDs.length`.  The loop only updates `status`. -/
def faceLoop (g : PuzzleGrid) (isActiveMode : Bool) : List Nat → Bool → Bool
  | [], failed => failed
  | faceId :: rest, failed =>
    match alGet g.faces faceId with
    | none => faceLoop g isActiveMode rest failed
    | some face =>
      if face.clue = -1 then faceLoop g isActiveMode rest failed
      else
        let numEdges := face.vertexIDs.length
        let p := countGuesses g face.edgeIDs
        let failed1 :=
          if isActiveMode ∧ (p.1 : Int) ≠ face.clue then true
          else if (p.1 : Int) > face.clue then true
          else if (numEdges : Int) - (p.2 : Int) < face.clue then true
          else failed
        faceLoop g isActiveMode rest failed1

/-- Inner search of the loop trace: the first edge of the current vertex
other than the edge just traversed whose user guess is "filled in".  A
dangling edge ID would throw on `edge.metadata.userGuess` in the source;
the well-formedness invariant assumed by every theorem about the trace
rules such IDs out, and the model skips them. -/
def findNextEdge (g : PuzzleGrid) (vx : Vertex) (currentEdgeId : Nat) : Option (Nat × Edge) :=
  vx.edgeIDs.findSome? (fun eid =>
    if eid = currentEdgeId then none
    else match alGet g.edges eid with
      | some e => if e.userGuess = 1 then some (eid, e) else none
      | none => none)

/-- Result of the do-while loop trace: the loop closed with the given
length, or no continuing filled edge existed ("Incomplete loop"), or the
current vertex was unregistered (a TypeError in the source), or the fuel
ran out. -/
inductive TraceResult
  | closed (loopLength : Nat)
  | incomplete
  | dangling
  | fuelOut
  deriving DecidableEq, Repr

/-- Do-while trace of `checkUserSolution`: from the current vertex follow
the (under the degree check unique) other filled edge until returning to
`startVertexId`, counting traversed edges.  The source loop is unbounded;
the fuel argument makes the recursion structural, and the caller passes
`g.edges.length`, which the walk-length lemma shows is enough fuel whenever
every vertex has at most two filled edges. -/
def traceLoop (g : PuzzleGrid) (startVertexId : Nat) :
    Nat → Nat → Nat → Nat → TraceResult
  | 0, _, _, _ => .fuelOut
  | fuel + 1, currentVertexId, currentEdgeId, loopLength =>
    match alGet g.vertices currentVertexId with
    | none => .dangling
    | some vx =>
      match findNextEdge g vx currentEdgeId with
      | none => .incomplete
      | some (eid, e) =>
        let nextV := if e.v1 = currentVertexId then e.v2 else e.v1
        if nextV = startVertexId then .closed (loopLength + 1)
        else traceLoop g startVertexId fuel nextV eid (loopLength + 1)

/-- Total number of filled-in edges
(`this.count(this.edges, ... userGuess === 1)`). -/
def numFilledTotal (g : PuzzleGrid) : Nat :=
  g.edges.countP (fun p => p.2.userGuess == 1)

/-- First filled-in edge in edge-store order, the trace start of the active
check. -/
def firstFilledEdge (g : PuzzleGrid) : Option (Nat × Edge) :=
  g.edges.find? (fun p => p.2.userGuess == 1)

/-- Loop trace as run by the active check: start from the first filled edge
(`startVertexId = startEdge.vertexIDs[0]`, current vertex
`startEdge.vertexIDs[1]`, loop length 1) with fuel `g.edges.length`. -/
def activeTrace (g : PuzzleGrid) : Option TraceResult :=
  (firstFilledEdge g).map (fun p => traceLoop g p.2.v1 g.edges.length p.2.v2 p.1 1)

/-- Observable outcome of `checkUserSolution`: each constructor is one exit
point of the source function.  `earlyReturn failed` is the
`if (!isActiveMode || status === 1) return` exit, with the value of
`status === 1` at that point; `typeErrorCrash` is an uncaught TypeError
escaping the function. -/
inductive CheckOutcome
  | noPuzzleData
  | typeErrorCrash
  | earlyReturn (failed : Bool)
  | noFilledEdges
  | incompleteLoop
  | multipleLoops
  | solved
  | fuelOut
  deriving DecidableEq, Repr

/-- Solution check (`PuzzleGrid.checkUserSolution`).  `anEdge` stands for
the `edgeMesh`/`edge` argument pair, which the callers always pass as the
mesh and record of one edge of the store (or both null).  The returned
state reflects the mesh-color mutations made by the highlighting calls;
the grid topology, user guesses and puzzle fields are threaded through
unchanged, as in the source, which never writes them here. -/
def checkUserSolution (g : PuzzleGrid) (isActiveMode : Bool) (anEdge : Option Nat) :
    CheckOutcome × PuzzleGrid :=
  match g.puzzleData with
  | none => (.noPuzzleData, g)
  | some _ =>
    let vIDsToCheck : List Nat :=
      match anEdge, isActiveMode with
      | some eid, false =>
        match alGet g.edges eid with
        | some e => if e.userGuess = 1 then [e.v1, e.v2] else []
        | none => []
      | _, _ => g.vertices.map Prod.fst
    match vertexLoop anEdge g vIDsToCheck false false with
    | (.error _, g1) => (.typeErrorCrash, g1)
    | (.ok fc, g1) =>
      let faceIDsToCheck : List Nat :=
        match anEdge, isActiveMode with
        | some eid, false =>
          match alGet g1.edges eid with
          | some e => e.faceIDs
          | none => []
        | _, _ => g1.faces.map Prod.fst
      let failed1 := faceLoop g1 isActiveMode faceIDsToCheck fc.1
      if ¬ isActiveMode ∨ failed1 then (.earlyReturn failed1, g1)
      else
        match firstFilledEdge g1 with
        | none => (.noFilledEdges, g1)
        | some se =>
          match traceLoop g1 se.2.v1 g1.edges.length se.2.v2 se.1 1 with
          | .dangling => (.typeErrorCrash, g1)
          | .fuelOut => (.fuelOut, g1)
          | .incomplete => (.incompleteLoop, g1)
          | .closed loopLength =>
            if numFilledTotal g1 > loopLength then (.multipleLoops, g1)
            else (.solved, g1)

/-- Key set of an association list after `alSet`: lookup of the set key. -/
theorem alGet_alSet_self {α : Type} (l : List (Nat × α)) (k : Nat) (v : α) :
    alGet (alSet l k v) k = some v := by
  induction l with
  | nil => simp [alGet, alSet]
  | cons p rest ih =>
    obtain ⟨k', v'⟩ := p
    by_cases h : k' = k
    · simp [alGet, alSet, h]
    · simp [alGet, alSet, h, ih]

/-- Lookup of a key other than the one just set is unchanged. -/
theorem alGet_alSet_ne {α : Type} (l : List (Nat × α)) (k k' : Nat) (v : α) (h : k ≠ k') :
    alGet (alSet l k v) k' = alGet l k' := by
  induction l with
  | nil => simp [alGet, alSet, h]
  | cons p rest ih =>
    obtain ⟨k0, v0⟩ := p
    by_cases h0 : k0 = k
    · subst h0
      simp [alGet, alSet, h]
    · simp only [alSet, if_neg h0]
      by_cases h1 : k0 = k'
      · simp [alGet, h1]
      · simp [alGet, h1, ih]

/-- Setting one key grows an association list by at most one entry. -/
theorem length_alSet_le {α : Type} (l : List (Nat × α)) (k : Nat) (v : α) :
    (alSet l k v).length ≤ l.length + 1 := by
  induction l with
  | nil => simp [alSet]
  | cons p rest ih =>
    obtain ⟨k0, v0⟩ := p
    by_cases h0 : k0 = k
    · simp [alSet, h0]
    · simp only [alSet, if_neg h0, List.length_cons]
      omega

/-- A successful lookup returns an entry of the list. -/
theorem alGet_mem {α : Type} {l : List (Nat × α)} {k : Nat} {v : α}
    (h : alGet l k = some v) : (k, v) ∈ l := by
  induction l with
  | nil => simp [alGet] at h
  | cons p rest ih =>
    obtain ⟨k0, v0⟩ := p
    by_cases h0 : k0 = k
    · subst h0
      simp [alGet] at h
      simp [h]
    · simp only [alGet, if_neg h0] at h
      exact List.mem_cons_of_mem _ (ih h)

/-- With duplicate-free keys, lookup finds any given entry. -/
theorem alGet_of_mem_of_nodup {α : Type} {l : List (Nat × α)} {k : Nat} {v : α}
    (hn : (l.map Prod.fst).Nodup) (hm : (k, v) ∈ l) : alGet l k = some v := by
  induction l with
  | nil => simp at hm
  | cons p rest ih =>
    obtain ⟨k0, v0⟩ := p
    simp only [List.map_cons, List.nodup_cons] at hn
    rcases List.mem_cons.mp hm with h | h
    · injection h with h1 h2
      subst h1
      subst h2
      simp [alGet]
    · have hk : k0 ≠ k := by
        intro he
        subst he
        exact hn.1 (List.mem_map_of_mem Prod.fst h)
      simp only [alGet, if_neg hk]
      exact ih hn.2 h

/-- A duplicate-free list included in another duplicate-free list is no
longer than it. -/
theorem nodup_subset_length {ds l : List Nat} (h1 : ds.Nodup) (h2 : l.Nodup)
    (h3 : ∀ x ∈ ds, x ∈ l) : ds.length ≤ l.length := by
  classical
  have c1 : ds.toFinset.card = ds.length := List.toFinset_card_of_nodup h1
  have c2 : l.toFinset.card = l.length := List.toFinset_card_of_nodup h2
  have hsub : ds.toFinset ⊆ l.toFinset := by
    intro x hx
    rw [List.mem_toFinset] at hx ⊢
    exact h3 x hx
  have := Finset.card_le_card hsub
  omega

/-- Filled-in test for one edge ID, the predicate the guess counters use. -/
def isFilledB (g : PuzzleGrid) (eid : Nat) : Bool :=
  match alGet g.edges eid with
  | some e => e.userGuess == 1
  | none => false

/-- First component of `countGuesses` as a `countP`. -/
theorem countGuesses_fst (g : PuzzleGrid) (l : List Nat) :
    (countGuesses g l).1 = l.countP (isFilledB g) := by
  induction l with
  | nil => simp [countGuesses, List.countP_nil]
  | cons eid rest ih =>
    rw [List.countP_cons]
    simp only [countGuesses]
    rcases h : alGet g.edges eid with - | e
    · simp [isFilledB, h, ih]
    · by_cases h1 : e.userGuess = 1
      · simp [isFilledB, h, h1, ih]
      · simp [isFilledB, h, h1, ih]

/-- Keys of the filled-in edges in store order. -/
def filledKeys (g : PuzzleGrid) : List Nat :=
  (g.edges.filter (fun p => p.2.userGuess == 1)).map Prod.fst

/-- Total filled count is the number of filled keys. -/
theorem numFilledTotal_eq (g : PuzzleGrid) : numFilledTotal g = (filledKeys g).length := by
  simp [numFilledTotal, filledKeys, List.countP_eq_length_filter]

/-- With duplicate-free edge keys, the filled keys are duplicate-free. -/
theorem filledKeys_nodup {g : PuzzleGrid} (h : (g.edges.map Prod.fst).Nodup) :
    (filledKeys g).Nodup :=
  h.sublist (List.Sublist.map Prod.fst (List.filter_sublist g.edges))

/-- A filled edge ID is a filled key. -/
theorem isFilledB_mem_filledKeys {g : PuzzleGrid} {eid : Nat} (h : isFilledB g eid = true) :
    eid ∈ filledKeys g := by
  unfold isFilledB at h
  rcases he : alGet g.edges eid with - | e
  · rw [he] at h
    simp at h
  · rw [he] at h
    have hm : (eid, e) ∈ g.edges.filter (fun p => p.2.userGuess == 1) :=
      List.mem_filter.mpr ⟨alGet_mem he, h⟩
    simpa [filledKeys] using List.mem_map_of_mem Prod.fst hm

/-- Any duplicate-free list of filled edge IDs is bounded by the total
filled count. -/
theorem nodup_filled_le_total {g : PuzzleGrid} {ds : List Nat}
    (hek : (g.edges.map Prod.fst).Nodup) (hd : ds.Nodup)
    (hf : ∀ d ∈ ds, isFilledB g d = true) : ds.length ≤ numFilledTotal g := by
  rw [numFilledTotal_eq]
  exact nodup_subset_length hd (filledKeys_nodup hek)
    (fun d hdm => isFilledB_mem_filledKeys (hf d hdm))

/-- Three distinct elements of a duplicate-free list that satisfy a
predicate force a count of at least three. -/
theorem three_le_countP {l : List Nat} (hn : l.Nodup) (p : Nat → Bool) {f1 f2 f3 : Nat}
    (h12 : f1 ≠ f2) (h13 : f1 ≠ f3) (h23 : f2 ≠ f3)
    (m1 : f1 ∈ l) (m2 : f2 ∈ l) (m3 : f3 ∈ l)
    (p1 : p f1 = true) (p2 : p f2 = true) (p3 : p f3 = true) : 3 ≤ l.countP p := by
  rw [List.countP_eq_length_filter]
  have : ([f1, f2, f3] : List Nat).length ≤ (l.filter p).length := by
    refine nodup_subset_length ?_ (hn.filter p) ?_
    · simp [h12, h13, h23]
    · intro x hx
      simp only [List.mem_cons, List.not_mem_nil, or_false] at hx
      rcases hx with hx | hx | hx
      · subst hx
        exact List.mem_filter.mpr ⟨m1, p1⟩
      · subst hx
        exact List.mem_filter.mpr ⟨m2, p2⟩
      · subst hx
        exact List.mem_filter.mpr ⟨m3, p3⟩
  simpa using this

/-- Per-edge well-formedness: distinct registered endpoints, and membership
in both endpoints' incidence sets. -/
def edgeEntryWFb (g : PuzzleGrid) (p : Nat × Edge) : Bool :=
  (p.2.v1 != p.2.v2) && alHasKey g.vertices p.2.v1 && alHasKey g.vertices p.2.v2 &&
    ((alGet g.vertices p.2.v1).all (fun vx => vx.edgeIDs.contains p.1)) &&
    ((alGet g.vertices p.2.v2).all (fun vx => vx.edgeIDs.contains p.1))

/-- Per-vertex well-formedness: every incident edge ID resolves to an edge
having this vertex as an endpoint. -/
def vertexEntryWFb (g : PuzzleGrid) (q : Nat × Vertex) : Bool :=
  q.2.edgeIDs.all (fun eid =>
    match alGet g.edges eid with
    | some e => q.1 == e.v1 || q.1 == e.v2
    | none => false)

/-- Well-formed topology: duplicate-free key columns and incidence sets,
coherent vertex/edge incidence in both directions, no self-loop edges, and
faces whose vertex and edge lists have equal length — all properties that
`createPolyhedron` establishes and that nothing afterwards disturbs. -/
def TopoWF (g : PuzzleGrid) : Prop :=
  (g.vertices.map Prod.fst).Nodup ∧
    (g.edges.map Prod.fst).Nodup ∧
    (∀ p ∈ g.edges, edgeEntryWFb g p = true) ∧
    (∀ q ∈ g.vertices, vertexEntryWFb g q = true ∧ q.2.edgeIDs.Nodup) ∧
    (∀ p ∈ g.faces, p.2.vertexIDs.length = p.2.edgeIDs.length) ∧
    (g.faces.map Prod.fst).Nodup

/-- Edge `eid` of the store is filled in and joins `a` and `b`. -/
def Connects (g : PuzzleGrid) (eid a b : Nat) : Prop :=
  ∃ e, alGet g.edges eid = some e ∧ e.userGuess = 1 ∧
    ((e.v1 = a ∧ e.v2 = b) ∨ (e.v1 = b ∧ e.v2 = a))

/-- Edge `eid` of the store has `w` as an endpoint. -/
def IncidentTo (g : PuzzleGrid) (eid w : Nat) : Prop :=
  ∃ ed, alGet g.edges eid = some ed ∧ (w = ed.v1 ∨ w = ed.v2)

/-- Both endpoints of edge `f` lie in the vertex set `S`. -/
def EndpointsWithin (g : PuzzleGrid) (f : Nat) (S : List Nat) : Prop :=
  ∀ ed, alGet g.edges f = some ed → ed.v1 ∈ S ∧ ed.v2 ∈ S

/-- A walk of filled edges starting at `v0`: `Chain g v0 es vs` holds when
`es` (most recent first) is the list of traversed edge IDs and `vs` (most
recent first) the list of vertices reached after each step. -/
inductive Chain (g : PuzzleGrid) (v0 : Nat) : List Nat → List Nat → Prop
  | base (eid v1 : Nat) : Connects g eid v0 v1 → Chain g v0 [eid] [v1]
  | step (eid v w : Nat) (es vs : List Nat) :
      Chain g v0 es (w :: vs) → Connects g eid w v → Chain g v0 (eid :: es) (v :: w :: vs)

theorem connects_incident_left {g : PuzzleGrid} {eid a b : Nat} (h : Connects g eid a b) :
    IncidentTo g eid a := by
  obtain ⟨e, h1, -, h3 | h3⟩ := h
  · exact ⟨e, h1, Or.inl h3.1.symm⟩
  · exact ⟨e, h1, Or.inr h3.2.symm⟩

theorem connects_incident_right {g : PuzzleGrid} {eid a b : Nat} (h : Connects g eid a b) :
    IncidentTo g eid b := by
  obtain ⟨e, h1, -, h3 | h3⟩ := h
  · exact ⟨e, h1, Or.inr h3.2.symm⟩
  · exact ⟨e, h1, Or.inl h3.1.symm⟩

theorem connects_filled {g : PuzzleGrid} {eid a b : Nat} (h : Connects g eid a b) :
    isFilledB g eid = true := by
  obtain ⟨e, h1, h2, -⟩ := h
  unfold isFilledB
  rw [h1]
  simp [h2]

/-- Every edge of a chain is filled. -/
theorem chain_filled {g : PuzzleGrid} {v0 : Nat} {es vs : List Nat}
    (h : Chain g v0 es vs) : ∀ f ∈ es, isFilledB g f = true := by
  induction h with
  | base eid v1 hc =>
    intro f hf
    rw [List.mem_singleton] at hf
    exact hf ▸ connects_filled hc
  | step eid v w es vs hch hc ih =>
    intro f hf
    rcases List.mem_cons.mp hf with hf | hf
    · exact hf ▸ connects_filled hc
    · exact ih f hf

/-- Chains pair one traversed edge with one reached vertex. -/
theorem chain_length {g : PuzzleGrid} {v0 : Nat} {es vs : List Nat}
    (h : Chain g v0 es vs) : es.length = vs.length := by
  induction h with
  | base eid v1 hc => rfl
  | step eid v w es vs hch hc ih => simpa using ih

/-- Every edge of a chain has both endpoints among the start vertex and the
reached vertices. -/
theorem chain_endpoints {g : PuzzleGrid} {v0 : Nat} {es vs : List Nat}
    (h : Chain g v0 es vs) : ∀ f ∈ es, EndpointsWithin g f (v0 :: vs) := by
  induction h with
  | base eid v1 hc =>
    intro f hf ed hed
    rw [List.mem_singleton] at hf
    subst hf
    obtain ⟨e, h1, -, h3⟩ := hc
    rw [hed] at h1
    injection h1 with h1
    subst h1
    rcases h3 with ⟨ha, hb⟩ | ⟨ha, hb⟩ <;> simp [ha, hb]
  | step eid v w es vs hch hc ih =>
    intro f hf ed hed
    rcases List.mem_cons.mp hf with hf | hf
    · subst hf
      obtain ⟨e, h1, -, h3⟩ := hc
      rw [hed] at h1
      injection h1 with h1
      subst h1
      rcases h3 with ⟨ha, hb⟩ | ⟨ha, hb⟩ <;> simp [ha, hb]
    · obtain ⟨ha, hb⟩ := ih f hf ed hed
      constructor
      · rcases List.mem_cons.mp ha with ha | ha
        · simp [ha]
        · simp [List.mem_cons.mpr (Or.inr ha)]
      · rcases List.mem_cons.mp hb with hb | hb
        · simp [hb]
        · simp [List.mem_cons.mpr (Or.inr hb)]

/-- The edges of a chain's tail avoid the chain's current vertex: their
endpoints lie among the start vertex and the earlier reached vertices. -/
theorem chain_tail_endpoints {g : PuzzleGrid} {v0 curE curV : Nat} {esr vsr : List Nat}
    (hch : Chain g v0 (curE :: esr) (curV :: vsr)) :
    ∀ f ∈ esr, EndpointsWithin g f (v0 :: vsr) := by
  cases hch with
  | base _ _ _ =>
    intro f hf
    simp at hf
  | step _ _ w es vs hsub hc =>
    intro f hf
    exact chain_endpoints hsub f hf

/-- The most recent edge of a chain is incident to the current vertex. -/
theorem chain_head_incident {g : PuzzleGrid} {v0 e v : Nat} {es vs : List Nat}
    (h : Chain g v0 (e :: es) (v :: vs)) : IncidentTo g e v := by
  cases h with
  | base _ _ hc => exact connects_incident_right hc
  | step _ _ w es vs hsub hc => exact connects_incident_right hc

/-- Every vertex of a chain except the current one has two distinct chain
edges incident to it (the edge that arrived there and the edge that left). -/
theorem chain_inner_edges {g : PuzzleGrid} {v0 : Nat} {es vs : List Nat}
    (h : Chain g v0 es vs) (hnd : es.Nodup) :
    ∀ x ∈ vs.drop 1, ∃ f1 ∈ es, ∃ f2 ∈ es, f1 ≠ f2 ∧ IncidentTo g f1 x ∧ IncidentTo g f2 x := by
  induction h with
  | base eid v1 hc =>
    intro x hx
    simp at hx
  | step eid v w es vs hch hc ih =>
    intro x hx
    simp only [List.drop_one, List.tail_cons] at hx
    rcases List.mem_cons.mp hx with hx | hx
    · subst hx
      obtain ⟨e2, es2, he2⟩ : ∃ e2 es2, es = e2 :: es2 := by
        cases hch with
        | base a b hcb => exact ⟨a, [], rfl⟩
        | step a b c d f hs hcb => exact ⟨a, d, rfl⟩
      refine ⟨eid, List.mem_cons_self _ _, e2, ?_, ?_, connects_incident_left hc, ?_⟩
      · rw [he2]
        exact List.mem_cons.mpr (Or.inr (List.mem_cons_self _ _))
      · intro hee
        rw [List.nodup_cons] at hnd
        exact hnd.1 (hee ▸ (he2 ▸ List.mem_cons_self e2 es2))
      · subst he2
        exact chain_head_incident hch
    · rw [List.nodup_cons] at hnd
      obtain ⟨f1, hf1, f2, hf2, hne, hi1, hi2⟩ := ih hnd.2 x (by simpa using hx)
      exact ⟨f1, List.mem_cons_of_mem _ hf1, f2, List.mem_cons_of_mem _ hf2, hne, hi1, hi2⟩

/-- A vertex's registered incidence only lists edges having it as an
endpoint. -/
theorem vertexWF_endpoint {g : PuzzleGrid} {vId : Nat} {vx : Vertex}
    (h : vertexEntryWFb g (vId, vx) = true) {eid : Nat} (hm : eid ∈ vx.edgeIDs)
    {e : Edge} (he : alGet g.edges eid = some e) : vId = e.v1 ∨ vId = e.v2 := by
  unfold vertexEntryWFb at h
  rw [List.all_eq_true] at h
  have h2 := h eid hm
  rw [he] at h2
  simpa using h2

/-- Unpacked edge well-formedness for an edge found by lookup. -/
theorem edgeWF_parts {g : PuzzleGrid} {eid : Nat} {e : Edge}
    (hwfe : ∀ p ∈ g.edges, edgeEntryWFb g p = true) (he : alGet g.edges eid = some e) :
    e.v1 ≠ e.v2 ∧
      (∀ vx, alGet g.vertices e.v1 = some vx → eid ∈ vx.edgeIDs) ∧
      (∀ vx, alGet g.vertices e.v2 = some vx → eid ∈ vx.edgeIDs) ∧
      (alGet g.vertices e.v1).isSome = true ∧ (alGet g.vertices e.v2).isSome = true := by
  have h := hwfe _ (alGet_mem he)
  unfold edgeEntryWFb at h
  simp only [Bool.and_eq_true, bne_iff_ne, ne_eq] at h
  obtain ⟨⟨⟨⟨h1, h2⟩, h3⟩, h4⟩, h5⟩ := h
  refine ⟨h1, ?_, ?_, ?_, ?_⟩
  · intro vx hv
    rw [hv] at h4
    simpa [Option.all] using h4
  · intro vx hv
    rw [hv] at h5
    simpa [Option.all] using h5
  · exact h2
  · exact h3

/-- Three distinct filled edges incident to one registered vertex contradict
the degree bound of the vertex check. -/
theorem degree_contra {g : PuzzleGrid} (hwf : TopoWF g)
    (hdeg : ∀ q ∈ g.vertices, (countGuesses g q.2.edgeIDs).1 ≤ 2)
    {w : Nat} {vw : Vertex} (hw : alGet g.vertices w = some vw)
    {f1 f2 f3 : Nat} (h12 : f1 ≠ f2) (h13 : f1 ≠ f3) (h23 : f2 ≠ f3)
    (i1 : IncidentTo g f1 w) (i2 : IncidentTo g f2 w) (i3 : IncidentTo g f3 w)
    (p1 : isFilledB g f1 = true) (p2 : isFilledB g f2 = true) (p3 : isFilledB g f3 = true) :
    False := by
  obtain ⟨-, -, hewf, hvwf, -⟩ := hwf
  have hmem : ∀ f : Nat, IncidentTo g f w → f ∈ vw.edgeIDs := by
    intro f hi
    obtain ⟨ed, hed, hcase⟩ := hi
    obtain ⟨-, hm1, hm2, -, -⟩ := edgeWF_parts hewf hed
    rcases hcase with hc | hc
    · exact hm1 vw (hc ▸ hw)
    · exact hm2 vw (hc ▸ hw)
  have hnd : vw.edgeIDs.Nodup := (hvwf _ (alGet_mem hw)).2
  have hcount : (countGuesses g vw.edgeIDs).1 ≤ 2 := hdeg _ (alGet_mem hw)
  rw [countGuesses_fst] at hcount
  have := three_le_countP hnd (isFilledB g) h12 h13 h23
    (hmem f1 i1) (hmem f2 i2) (hmem f3 i3) p1 p2 p3
  omega

/-- Properties of the edge found by the trace's inner search. -/
theorem findNextEdge_spec {g : PuzzleGrid} {vx : Vertex} {curE eid : Nat} {e : Edge}
    (h : findNextEdge g vx curE = some (eid, e)) :
    eid ∈ vx.edgeIDs ∧ eid ≠ curE ∧ alGet g.edges eid = some e ∧ e.userGuess = 1 := by
  unfold findNextEdge at h
  obtain ⟨a, ha, hfa⟩ := List.exists_of_findSome?_eq_some h
  by_cases h1 : a = curE
  · rw [if_pos h1] at hfa
    cases hfa
  · rw [if_neg h1] at hfa
    rcases h2 : alGet g.edges a with - | ea
    · rw [h2] at hfa
      cases hfa
    · rw [h2] at hfa
      dsimp only at hfa
      by_cases h3 : ea.userGuess = 1
      · rw [if_pos h3] at hfa
        injection hfa with hfa
        injection hfa with hfa1 hfa2
        subst hfa1
        subst hfa2
        exact ⟨ha, h1, h2, h3⟩
      · rw [if_neg h3] at hfa
        cases hfa

/-- No-edge-repeat bound for the loop trace: continuing from an already
traversed chain whose vertices are distinct and avoid the start vertex, a
closed trace result is at most the total number of filled edges.  Every
step of the walk traverses a fresh filled edge: a repeat would either
revisit an inner chain vertex — giving that vertex three distinct filled
incident edges, contradicting the degree bound from the vertex check — or
revisit the start vertex, which ends the walk. -/
theorem traceLoop_closed_le (g : PuzzleGrid) (hwf : TopoWF g)
    (hdeg : ∀ q ∈ g.vertices, (countGuesses g q.2.edgeIDs).1 ≤ 2) (v0 : Nat) :
    ∀ fuel curV curE len esr vsr,
      Chain g v0 (curE :: esr) (curV :: vsr) →
      (curE :: esr).Nodup → (curV :: vsr).Nodup → v0 ∉ curV :: vsr →
      (curE :: esr).length = len →
      ∀ L, traceLoop g v0 fuel curV curE len = .closed L → L ≤ numFilledTotal g := by
  intro fuel
  induction fuel with
  | zero =>
    intro curV curE len esr vsr _ _ _ _ _ L htr
    simp [traceLoop] at htr
  | succ fuel ih =>
    intro curV curE len esr vsr hch hne hnv hv0 hlen L htr
    have hewf := hwf.2.2.1
    have hvwf := hwf.2.2.2.1
    simp only [traceLoop] at htr
    rcases hv : alGet g.vertices curV with - | vx
    · rw [hv] at htr
      cases htr
    · rw [hv] at htr
      dsimp only at htr
      rcases hnext : findNextEdge g vx curE with - | pe
      · rw [hnext] at htr
        cases htr
      · obtain ⟨eid2, e2⟩ := pe
        rw [hnext] at htr
        dsimp only at htr
        obtain ⟨hm, hneq, he2, hg1⟩ := findNextEdge_spec hnext
        have hcv : curV = e2.v1 ∨ curV = e2.v2 :=
          vertexWF_endpoint (hvwf _ (alGet_mem hv)).1 hm he2
        have hvne : e2.v1 ≠ e2.v2 := (edgeWF_parts hewf he2).1
        generalize hnvdef : (if e2.v1 = curV then e2.v2 else e2.v1) = nv at htr
        have hconn : Connects g eid2 curV nv := by
          by_cases h : e2.v1 = curV
          · rw [if_pos h] at hnvdef
            exact ⟨e2, he2, hg1, Or.inl ⟨h, hnvdef⟩⟩
          · rw [if_neg h] at hnvdef
            rcases hcv with hc | hc
            · exact absurd hc.symm h
            · exact ⟨e2, he2, hg1, Or.inr ⟨hnvdef, hc.symm⟩⟩
        have hnvne : nv ≠ curV := by
          by_cases h : e2.v1 = curV
          · rw [if_pos h] at hnvdef
            rw [← hnvdef, ← h]
            exact fun he => hvne he.symm
          · rw [if_neg h] at hnvdef
            rw [← hnvdef]
            exact h
        have hfresh : eid2 ∉ curE :: esr := by
          intro hmem
          rcases List.mem_cons.mp hmem with hmem | hmem
          · exact hneq hmem
          · have hep := chain_tail_endpoints hch eid2 hmem e2 he2
            have hcvmem : curV ∈ v0 :: vsr := by
              rcases hcv with hc | hc
              · exact hc ▸ hep.1
              · exact hc ▸ hep.2
            rcases List.mem_cons.mp hcvmem with hc | hc
            · refine hv0 ?_
              rw [← hc]
              exact List.mem_cons_self _ _
            · exact (List.nodup_cons.mp hnv).1 hc
        by_cases hnv0 : nv = v0
        · rw [if_pos hnv0] at htr
          injection htr with hL
          have hlist : (eid2 :: curE :: esr).Nodup := List.nodup_cons.mpr ⟨hfresh, hne⟩
          have hallf : ∀ d ∈ eid2 :: curE :: esr, isFilledB g d = true := by
            intro d hd
            rcases List.mem_cons.mp hd with hd | hd
            · subst hd
              unfold isFilledB
              rw [he2]
              simp [hg1]
            · exact chain_filled hch d hd
          have hbound := nodup_filled_le_total hwf.2.1 hlist hallf
          simp only [List.length_cons] at hbound hlen
          omega
        · rw [if_neg hnv0] at htr
          have hnvmem : nv ∉ curV :: vsr := by
            intro hmem
            rcases List.mem_cons.mp hmem with hmem | hmem
            · exact hnvne hmem
            · obtain ⟨f1, hf1, f2, hf2, hf12, hi1, hi2⟩ :=
                chain_inner_edges hch hne nv hmem
              have hreg : (alGet g.vertices nv).isSome = true := by
                have hp := edgeWF_parts hewf he2
                by_cases h : e2.v1 = curV
                · rw [if_pos h] at hnvdef
                  exact hnvdef ▸ hp.2.2.2.2
                · rw [if_neg h] at hnvdef
                  exact hnvdef ▸ hp.2.2.2.1
              obtain ⟨vw, hvw⟩ := Option.isSome_iff_exists.mp hreg
              have hi3 : IncidentTo g eid2 nv := connects_incident_right hconn
              have hfill3 : isFilledB g eid2 = true := by
                unfold isFilledB
                rw [he2]
                simp [hg1]
              exact degree_contra hwf hdeg hvw hf12
                (fun he => hfresh (by rw [← he]; exact hf1))
                (fun he => hfresh (by rw [← he]; exact hf2))
                hi1 hi2 hi3
                (chain_filled hch f1 hf1) (chain_filled hch f2 hf2) hfill3
          have hch2 : Chain g v0 (eid2 :: curE :: esr) (nv :: curV :: vsr) :=
            Chain.step eid2 nv curV (curE :: esr) vsr hch hconn
          refine ih nv eid2 (len + 1) (curE :: esr) (curV :: vsr) hch2
            (List.nodup_cons.mpr ⟨hfresh, hne⟩)
            (List.nodup_cons.mpr ⟨hnvmem, hnv⟩) ?_ ?_ L htr
          · intro hmv
            rcases List.mem_cons.mp hmv with hmv | hmv
            · exact hnv0 hmv.symm
            · exact hv0 hmv
          · simp only [List.length_cons] at hlen ⊢
            omega

/-- Claim condition: every vertex has at most two filled incident edges. -/
def DegreeOK (g : PuzzleGrid) : Prop :=
  ∀ q ∈ g.vertices, (countGuesses g q.2.edgeIDs).1 ≤ 2

/-- Claim condition: every face with a clue (other than -1) has exactly
`clue` filled edges and at least `clue` edges not ruled out. -/
def FacesOK (g : PuzzleGrid) : Prop :=
  ∀ p ∈ g.faces, p.2.clue ≠ -1 →
    ((countGuesses g p.2.edgeIDs).1 : Int) = p.2.clue ∧
      p.2.clue ≤ (p.2.edgeIDs.length : Int) - ((countGuesses g p.2.edgeIDs).2 : Int)

/-- Claim condition: at least one edge is filled in. -/
def HasFilledEdge (g : PuzzleGrid) : Prop :=
  ∃ p ∈ g.edges, p.2.userGuess = 1

/-- Conditions of claim C1 for a Solved verdict: some edge is filled, no
vertex exceeds degree two, every clued face matches its clue exactly with
enough non-ruled-out edges, and the walk from the trace-start filled edge
returns to its start vertex with a loop length equal to the total number
of filled edges. -/
def ActiveSolvedSpec (g : PuzzleGrid) : Prop :=
  HasFilledEdge g ∧ DegreeOK g ∧ FacesOK g ∧
    activeTrace g = some (.closed (numFilledTotal g))

/-- The vertex loop passes untouched when no violation exists among the
checked IDs. -/
theorem vertexLoop_ok (em : Option Nat) (g : PuzzleGrid) (failed cleared : Bool) :
    ∀ ids : List Nat,
      (∀ vId ∈ ids, ∀ vx, alGet g.vertices vId = some vx → (countGuesses g vx.edgeIDs).1 ≤ 2) →
      vertexLoop em g ids failed cleared = (.ok (failed, cleared), g) := by
  intro ids
  induction ids with
  | nil => intro h; rfl
  | cons v rest ih =>
    intro h
    simp only [vertexLoop]
    rcases hv : alGet g.vertices v with - | vx
    · exact ih fun vId hm => h vId (List.mem_cons_of_mem _ hm)
    · have hle := h v (List.mem_cons_self _ _) vx hv
      dsimp only
      rw [if_neg (by omega)]
      exact ih fun vId hm => h vId (List.mem_cons_of_mem _ hm)

/-- With no edge mesh passed (the active check), the vertex loop crashes
with a TypeError as soon as some checked vertex violates the degree
bound. -/
theorem vertexLoop_crash (g : PuzzleGrid) :
    ∀ (ids : List Nat) (failed cleared : Bool),
      (∃ vId ∈ ids, ∃ vx, alGet g.vertices vId = some vx ∧ 2 < (countGuesses g vx.edgeIDs).1) →
      (vertexLoop none g ids failed cleared).1 = .error .typeError := by
  intro ids
  induction ids with
  | nil =>
    intro _ _ h
    obtain ⟨v, hv, -⟩ := h
    simp at hv
  | cons v rest ih =>
    intro failed cleared h
    simp only [vertexLoop]
    rcases hv : alGet g.vertices v with - | vx
    · apply ih
      obtain ⟨v1, hv1, vx1, hvx1, hgt⟩ := h
      rcases List.mem_cons.mp hv1 with he | he
      · subst he
        rw [hv] at hvx1
        cases hvx1
      · exact ⟨v1, he, vx1, hvx1, hgt⟩
    · dsimp only
      by_cases hgt : (countGuesses g vx.edgeIDs).1 > 2
      · rw [if_pos hgt]
        simp [highlightEdgeError]
      · rw [if_neg hgt]
        apply ih
        obtain ⟨v1, hv1, vx1, hvx1, hgt1⟩ := h
        rcases List.mem_cons.mp hv1 with he | he
        · subst he
          rw [hv] at hvx1
          injection hvx1 with hh
          subst hh
          omega
        · exact ⟨v1, he, vx1, hvx1, hgt1⟩

/-- Violation test run by the face loop for one face ID. -/
def badFaceB (g : PuzzleGrid) (isActiveMode : Bool) (faceId : Nat) : Bool :=
  match alGet g.faces faceId with
  | none => false
  | some face =>
    if face.clue = -1 then false
    else if isActiveMode ∧ ((countGuesses g face.edgeIDs).1 : Int) ≠ face.clue then true
    else if ((countGuesses g face.edgeIDs).1 : Int) > face.clue then true
    else if (face.vertexIDs.length : Int) - ((countGuesses g face.edgeIDs).2 : Int) < face.clue
      then true
    else false

/-- The face loop computes the disjunction of its incoming status and the
per-face violation tests. -/
theorem faceLoop_eq_any (g : PuzzleGrid) (a : Bool) :
    ∀ (ids : List Nat) (failed : Bool),
      faceLoop g a ids failed = (failed || ids.any (badFaceB g a)) := by
  intro ids
  induction ids with
  | nil => intro failed; simp [faceLoop]
  | cons f rest ih =>
    intro failed
    simp only [faceLoop, List.any_cons]
    rcases hf : alGet g.faces f with - | face
    · rw [ih]
      simp [badFaceB, hf]
    · dsimp only
      by_cases h1 : face.clue = -1
      · rw [if_pos h1, ih]
        simp [badFaceB, hf, h1]
      · rw [if_neg h1]
        by_cases c1 : a ∧ ((countGuesses g face.edgeIDs).1 : Int) ≠ face.clue
        · rw [if_pos c1, ih]
          simp [badFaceB, hf, h1, c1]
        · rw [if_neg c1]
          by_cases c2 : ((countGuesses g face.edgeIDs).1 : Int) > face.clue
          · rw [if_pos c2, ih]
            simp [badFaceB, hf, h1, c1, c2]
          · rw [if_neg c2]
            by_cases c3 :
                (face.vertexIDs.length : Int) - ((countGuesses g face.edgeIDs).2 : Int) < face.clue
            · rw [if_pos c3, ih]
              simp [badFaceB, hf, h1, c1, c2, c3]
            · rw [if_neg c3, ih]
              simp [badFaceB, hf, h1, c1, c2, c3]

/-- Over the face keys, in active mode, the absence of any face violation
is exactly the claim's face condition (using the equality of vertex- and
edge-list lengths on well-formed faces). -/
theorem faceCheck_iff (g : PuzzleGrid) (hfk : (g.faces.map Prod.fst).Nodup)
    (hfl : ∀ p ∈ g.faces, p.2.vertexIDs.length = p.2.edgeIDs.length) :
    (g.faces.map Prod.fst).any (badFaceB g true) = false ↔ FacesOK g := by
  rw [List.any_eq_false]
  constructor
  · intro h p hp hclue
    have hget : alGet g.faces p.1 = some p.2 :=
      alGet_of_mem_of_nodup hfk (by rw [Prod.mk.eta]; exact hp)
    have hb := h p.1 (List.mem_map_of_mem Prod.fst hp)
    unfold badFaceB at hb
    rw [hget] at hb
    dsimp only at hb
    rw [if_neg hclue] at hb
    by_cases c1 : (true : Bool) ∧ ((countGuesses g p.2.edgeIDs).1 : Int) ≠ p.2.clue
    · rw [if_pos c1] at hb
      exact absurd rfl hb
    · rw [if_neg c1] at hb
      have hc1 : ((countGuesses g p.2.edgeIDs).1 : Int) = p.2.clue := by
        by_contra hne
        exact c1 ⟨rfl, hne⟩
      by_cases c2 : ((countGuesses g p.2.edgeIDs).1 : Int) > p.2.clue
      · rw [if_pos c2] at hb
        exact absurd rfl hb
      · rw [if_neg c2] at hb
        by_cases c3 :
            (p.2.vertexIDs.length : Int) - ((countGuesses g p.2.edgeIDs).2 : Int) < p.2.clue
        · rw [if_pos c3] at hb
          exact absurd rfl hb
        · refine ⟨hc1, ?_⟩
          rw [hfl p hp] at c3
          omega
  · intro h fid hfid
    obtain ⟨p, hp, hfst⟩ := List.mem_map.mp hfid
    subst hfst
    unfold badFaceB
    have hget : alGet g.faces p.1 = some p.2 :=
      alGet_of_mem_of_nodup hfk (by rw [Prod.mk.eta]; exact hp)
    rw [hget]
    dsimp only
    by_cases hclue : p.2.clue = -1
    · rw [if_pos hclue]
      simp
    · rw [if_neg hclue]
      obtain ⟨h1, h2⟩ := h p hp hclue
      rw [if_neg (by intro hc; exact hc.2 h1)]
      rw [if_neg (by omega)]
      rw [if_neg (by rw [hfl p hp]; omega)]
      simp

instance (g : PuzzleGrid) : Decidable (TopoWF g) := by
  unfold TopoWF
  infer_instance

instance (g : PuzzleGrid) : Decidable (DegreeOK g) := by
  unfold DegreeOK
  infer_instance

instance (g : PuzzleGrid) : Decidable (FacesOK g) := by
  unfold FacesOK
  infer_instance

instance (g : PuzzleGrid) : Decidable (HasFilledEdge g) := by
  unfold HasFilledEdge
  infer_instance

instance (g : PuzzleGrid) : Decidable (ActiveSolvedSpec g) := by
  unfold ActiveSolvedSpec
  infer_instance

/-- Outcome of the active check when the degree check passes: the face
check decides an early failure, otherwise the trace runs from the first
filled edge. -/
theorem checkActive_eq (g : PuzzleGrid) (pd : PuzzleData) (hpd2 : g.puzzleData = some pd)
    (hdeg : DegreeOK g) :
    checkUserSolution g true none =
      (if (g.faces.map Prod.fst).any (badFaceB g true) then (.earlyReturn true, g)
      else
        match firstFilledEdge g with
        | none => (.noFilledEdges, g)
        | some se =>
          match traceLoop g se.2.v1 g.edges.length se.2.v2 se.1 1 with
          | .dangling => (.typeErrorCrash, g)
          | .fuelOut => (.fuelOut, g)
          | .incomplete => (.incompleteLoop, g)
          | .closed L =>
            if numFilledTotal g > L then (.multipleLoops, g) else (.solved, g)) := by
  unfold checkUserSolution
  rw [hpd2]
  dsimp only
  rw [vertexLoop_ok none g false false (g.vertices.map Prod.fst)
    (fun vId _ vx hv => hdeg _ (alGet_mem hv))]
  dsimp only
  rw [faceLoop_eq_any]
  simp only [Bool.false_or]
  by_cases hany : (g.faces.map Prod.fst).any (badFaceB g true) = true
  · rw [if_pos (Or.inr hany), if_pos hany, hany]
  · rw [if_neg ?_, if_neg hany]
    simp [hany]

/-- The active check crashes with a TypeError when some vertex violates
the degree bound: `highlightEdgeError` dereferences the absent edge
mesh. -/
theorem checkActive_crash (g : PuzzleGrid) (pd : PuzzleData) (hpd2 : g.puzzleData = some pd)
    (hvk : (g.vertices.map Prod.fst).Nodup) (hndeg : ¬ DegreeOK g) :
    (checkUserSolution g true none).1 = .typeErrorCrash := by
  unfold checkUserSolution
  rw [hpd2]
  dsimp only
  have hex : ∃ vId ∈ g.vertices.map Prod.fst,
      ∃ vx, alGet g.vertices vId = some vx ∧ 2 < (countGuesses g vx.edgeIDs).1 := by
    unfold DegreeOK at hndeg
    push_neg at hndeg
    obtain ⟨q, hq, hgt⟩ := hndeg
    exact ⟨q.1, List.mem_map_of_mem _ hq, q.2,
      alGet_of_mem_of_nodup hvk (by rw [Prod.mk.eta]; exact hq), by omega⟩
  have hcrash := vertexLoop_crash g (g.vertices.map Prod.fst) false false hex
  rcases hres : vertexLoop none g (g.vertices.map Prod.fst) false false with ⟨r, g1⟩
  cases r with
  | ok a =>
    rw [hres] at hcrash
    simp at hcrash
  | error err => rfl

/-- Claim C1, amended.  For a well-formed topology with puzzle data set, the
active check reports Solved exactly under `ActiveSolvedSpec`; a face-clue
violation (with the degree check passing) reports failure without running
the loop trace; a vertex-degree violation crashes with a TypeError instead
of reporting; and the no-filled-edge, incomplete-loop and multiple-loop
situations each report their failure. -/
theorem checkUserSolution_active_spec (g : PuzzleGrid) (hwf : TopoWF g)
    (hpd : g.puzzleData.isSome = true) :
    ((checkUserSolution g true none).1 = .solved ↔ ActiveSolvedSpec g) ∧
      (¬ DegreeOK g → (checkUserSolution g true none).1 = .typeErrorCrash) ∧
      (DegreeOK g → ¬ FacesOK g → (checkUserSolution g true none).1 = .earlyReturn true) ∧
      (DegreeOK g → FacesOK g → ¬ HasFilledEdge g →
        (checkUserSolution g true none).1 = .noFilledEdges) ∧
      (DegreeOK g → FacesOK g → activeTrace g = some .incomplete →
        (checkUserSolution g true none).1 = .incompleteLoop) ∧
      (DegreeOK g → FacesOK g → ∀ L, activeTrace g = some (.closed L) → L < numFilledTotal g →
        (checkUserSolution g true none).1 = .multipleLoops) := by
  obtain ⟨pd, hpd2⟩ := Option.isSome_iff_exists.mp hpd
  by_cases hdeg : DegreeOK g
  · have heq := checkActive_eq g pd hpd2 hdeg
    by_cases hfok : FacesOK g
    · have hany : (g.faces.map Prod.fst).any (badFaceB g true) = false :=
        (faceCheck_iff g hwf.2.2.2.2.2 hwf.2.2.2.2.1).mpr hfok
      rw [hany] at heq
      rw [if_neg (by simp)] at heq
      rcases hfirst : firstFilledEdge g with - | se
      · rw [hfirst] at heq
        dsimp only at heq
        have hnofill : ¬ HasFilledEdge g := by
          intro hex
          obtain ⟨p, hp, hg1⟩ := hex
          unfold firstFilledEdge at hfirst
          rw [List.find?_eq_none] at hfirst
          exact absurd (by simp [hg1]) (hfirst p hp)
        refine ⟨?_, fun hnd => absurd hdeg hnd, fun _ hnf => absurd hfok hnf,
          fun _ _ _ => by rw [heq], ?_, ?_⟩
        · rw [heq]
          constructor
          · intro hc
            cases hc
          · intro hc
            exact absurd hc.1 hnofill
        · intro _ _ htr
          unfold activeTrace at htr
          rw [hfirst] at htr
          cases htr
        · intro _ _ L htr
          unfold activeTrace at htr
          rw [hfirst] at htr
          cases htr
      · rw [hfirst] at heq
        dsimp only at heq
        have hse1 : se.2.userGuess = 1 := by
          have := List.find?_some hfirst
          simpa using this
        have hmem : se ∈ g.edges := List.mem_of_find?_eq_some hfirst
        have hget : alGet g.edges se.1 = some se.2 :=
          alGet_of_mem_of_nodup hwf.2.1 (by rw [Prod.mk.eta]; exact hmem)
        have hvne : se.2.v1 ≠ se.2.v2 := (edgeWF_parts hwf.2.2.1 hget).1
        have hhasf : HasFilledEdge g := ⟨se, hmem, hse1⟩
        have hat : activeTrace g =
            some (traceLoop g se.2.v1 g.edges.length se.2.v2 se.1 1) := by
          unfold activeTrace
          rw [hfirst]
          rfl
        rcases htr : traceLoop g se.2.v1 g.edges.length se.2.v2 se.1 1 with L | - | - | -
        · -- closed L
          have hLle : L ≤ numFilledTotal g := by
            refine traceLoop_closed_le g hwf hdeg se.2.v1 g.edges.length se.2.v2 se.1 1 [] []
              ?_ (by simp) (by simp) (by simp [hvne]) rfl L htr
            exact Chain.base se.1 se.2.v2 ⟨se.2, hget, hse1, Or.inl ⟨rfl, rfl⟩⟩
          rw [htr] at heq hat
          dsimp only at heq
          by_cases hgt : numFilledTotal g > L
          · rw [if_pos hgt] at heq
            refine ⟨?_, fun hnd => absurd hdeg hnd, fun _ hnf => absurd hfok hnf,
              fun _ _ hnf => absurd hhasf hnf, ?_, fun _ _ _ _ _ => by rw [heq]⟩
            · rw [heq]
              constructor
              · intro hc
                cases hc
              · intro hc
                have := hc.2.2.2
                rw [hat] at this
                injection this with hthis
                injection hthis with hthis
                omega
            · intro _ _ hinc
              rw [hat] at hinc
              injection hinc with hthis
              cases hthis
          · rw [if_neg hgt] at heq
            have hLeq : L = numFilledTotal g := by omega
            refine ⟨?_, fun hnd => absurd hdeg hnd, fun _ hnf => absurd hfok hnf,
              fun _ _ hnf => absurd hhasf hnf, ?_, ?_⟩
            · rw [heq]
              constructor
              · intro _
                refine ⟨hhasf, hdeg, hfok, ?_⟩
                rw [hat, hLeq]
              · intro _
                rfl
            · intro _ _ hinc
              rw [hat] at hinc
              injection hinc with hthis
              cases hthis
            · intro _ _ L2 htr2 hlt
              rw [hat] at htr2
              injection htr2 with hthis
              injection hthis with hthis
              omega
        · -- incomplete
          rw [htr] at heq hat
          dsimp only at heq
          refine ⟨?_, fun hnd => absurd hdeg hnd, fun _ hnf => absurd hfok hnf,
            fun _ _ hnf => absurd hhasf hnf, fun _ _ _ => by rw [heq], ?_⟩
          · rw [heq]
            constructor
            · intro hc
              cases hc
            · intro hc
              have := hc.2.2.2
              rw [hat] at this
              injection this with hthis
              cases hthis
          · intro _ _ L2 htr2 _
            rw [hat] at htr2
            injection htr2 with hthis
            cases hthis
        · -- dangling
          rw [htr] at heq hat
          dsimp only at heq
          refine ⟨?_, fun hnd => absurd hdeg hnd, fun _ hnf => absurd hfok hnf,
            fun _ _ hnf => absurd hhasf hnf, ?_, ?_⟩
          · rw [heq]
            constructor
            · intro hc
              cases hc
            · intro hc
              have := hc.2.2.2
              rw [hat] at this
              injection this with hthis
              cases hthis
          · intro _ _ hinc
            rw [hat] at hinc
            injection hinc with hthis
            cases hthis
          · intro _ _ L2 htr2 _
            rw [hat] at htr2
            injection htr2 with hthis
            cases hthis
        · -- fuelOut
          rw [htr] at heq hat
          dsimp only at heq
          refine ⟨?_, fun hnd => absurd hdeg hnd, fun _ hnf => absurd hfok hnf,
            fun _ _ hnf => absurd hhasf hnf, ?_, ?_⟩
          · rw [heq]
            constructor
            · intro hc
              cases hc
            · intro hc
              have := hc.2.2.2
              rw [hat] at this
              injection this with hthis
              cases hthis
          · intro _ _ hinc
            rw [hat] at hinc
            injection hinc with hthis
            cases hthis
          · intro _ _ L2 htr2 _
            rw [hat] at htr2
            injection htr2 with hthis
            cases hthis
    · have hany : (g.faces.map Prod.fst).any (badFaceB g true) = true := by
        rcases hb : (g.faces.map Prod.fst).any (badFaceB g true) with - | -
        · exact absurd ((faceCheck_iff g hwf.2.2.2.2.2 hwf.2.2.2.2.1).mp hb) hfok
        · rfl
      rw [hany, if_pos rfl] at heq
      refine ⟨?_, fun hnd => absurd hdeg hnd, fun _ _ => by rw [heq], ?_, ?_, ?_⟩
      · rw [heq]
        constructor
        · intro hc
          cases hc
        · intro hc
          exact absurd hc.2.2.1 hfok
      · intro _ hf
        exact absurd hf hfok
      · intro _ hf
        exact absurd hf hfok
      · intro _ hf
        exact absurd hf hfok
  · have hcr := checkActive_crash g pd hpd2 hwf.1 hdeg
    refine ⟨?_, fun _ => hcr, fun hd => absurd hd hdeg, fun hd => absurd hd hdeg,
      fun hd => absurd hd hdeg, fun hd => absurd hd hdeg⟩
    rw [hcr]
    constructor
    · intro hc
      cases hc
    · intro hc
      exact absurd hc.2.1 hdeg

/-- Triangle topology with every edge filled in and puzzle data set:
vertices 0, 1, 2 and edges 0:(0,1), 1:(1,2), 2:(2,0), no clued faces.  A
correct single-loop position of the active check. -/
def triGrid : PuzzleGrid :=
  ⟨[(0, ⟨[0, 2], []⟩), (1, ⟨[0, 1], []⟩), (2, ⟨[1, 2], []⟩)],
   [(0, ⟨0, 1, [], 1⟩), (1, ⟨1, 2, [], 1⟩), (2, ⟨2, 0, [], 1⟩)],
   [], [], 3, some ⟨"tri", []⟩, 0, some "tri", []⟩

/-- Star topology with three filled edges meeting at vertex 0 — a
vertex-degree violation for the active check. -/
def starGrid : PuzzleGrid :=
  ⟨[(0, ⟨[0, 1, 2], []⟩), (1, ⟨[0], []⟩), (2, ⟨[1], []⟩), (3, ⟨[2], []⟩)],
   [(0, ⟨0, 1, [], 1⟩), (1, ⟨0, 2, [], 1⟩), (2, ⟨0, 3, [], 1⟩)],
   [], [], 3, some ⟨"star", []⟩, 0, some "star", []⟩

/-- C1 counterexample: on a topology with clues applied and puzzle data set
where a vertex-degree violation exists (three filled edges at vertex 0),
the active check does not report failure — it escapes with a TypeError
while trying to highlight the absent edge mesh (`highlightEdgeError(null)`),
after clearing all highlights. -/
theorem c1_vertex_violation_crashes_counterexample :
    TopoWF starGrid ∧ starGrid.puzzleData.isSome = true ∧ ¬ DegreeOK starGrid ∧
      (checkUserSolution starGrid true none).1 = .typeErrorCrash ∧
      ¬ (checkUserSolution starGrid true none).1 = .earlyReturn true := by
  decide

/-- C1 witness: the amended characterization applied to the solved triangle
position. -/
theorem checkUserSolution_active_spec_witness :
    TopoWF triGrid ∧ triGrid.puzzleData.isSome = true ∧
      ((checkUserSolution triGrid true none).1 = .solved ↔ ActiveSolvedSpec triGrid) :=
  ⟨by decide, by decide, (checkUserSolution_active_spec triGrid (by decide) (by decide)).1⟩

/-- The vertex-pair hash ignores the argument order. -/
theorem hashVertexPair_comm (a b : Nat) : hashVertexPair a b = hashVertexPair b a := by
  unfold hashVertexPair
  rcases Nat.lt_trichotomy a b with h | h | h
  · rw [if_pos h, if_neg (by omega)]
  · subst h
    rfl
  · rw [if_neg (by omega), if_pos h]

/-- Computation of `addEdge` on two registered endpoints: it succeeds with
the fresh ID and its effect on the edge map and the pair index. -/
theorem addEdge_ok (g : PuzzleGrid) (a b guess : Nat)
    (ha : alHasKey g.vertices a = true) (hb : alHasKey g.vertices b = true) :
    (addEdge g a b guess).1 = .ok g.nextId ∧
      (addEdge g a b guess).2.edges = alSet g.edges g.nextId ⟨a, b, [], guess⟩ ∧
      (addEdge g a b guess).2.vertexPairToEdge =
        alSet g.vertexPairToEdge (hashVertexPair a b) g.nextId ∧
      (∀ v, alHasKey g.vertices v = true → alHasKey (addEdge g a b guess).2.vertices v = true) := by
  unfold alHasKey at ha hb
  obtain ⟨vx1, hvx1⟩ := Option.isSome_iff_exists.mp ha
  unfold addEdge
  dsimp only
  rw [hvx1]
  dsimp only
  by_cases hab : b = a
  · subst hab
    rw [alGet_alSet_self]
    refine ⟨rfl, rfl, rfl, ?_⟩
    intro v hv
    unfold alHasKey at hv ⊢
    dsimp only
    by_cases hvb : v = b
    · subst hvb
      rw [alGet_alSet_self]
      rfl
    · rw [alGet_alSet_ne _ _ _ _ fun h => hvb h.symm,
        alGet_alSet_ne _ _ _ _ fun h => hvb h.symm]
      exact hv
  · obtain ⟨vx2, hvx2⟩ := Option.isSome_iff_exists.mp hb
    rw [alGet_alSet_ne _ _ _ _ fun h => hab h.symm, hvx2]
    refine ⟨rfl, rfl, rfl, ?_⟩
    intro v hv
    unfold alHasKey at hv ⊢
    dsimp only
    by_cases hvb : v = b
    · subst hvb
      rw [alGet_alSet_self]
      rfl
    · rw [alGet_alSet_ne _ _ _ _ fun h => hvb h.symm]
      by_cases hva : v = a
      · subst hva
        rw [alGet_alSet_self]
        rfl
      · rw [alGet_alSet_ne _ _ _ _ fun h => hva h.symm]
        exact hv

/-- Claim C2: for registered vertex IDs, ensuring the edge between them
twice — in either argument order — returns the same edge ID both times and
grows the edge count by at most one: the second call finds, via the
symmetric vertex-pair index, the edge the first call created or found, and
creates nothing. -/
theorem ensureEdge_twice_same_id (g : PuzzleGrid) (a b : Nat)
    (ha : alHasKey g.vertices a = true) (hb : alHasKey g.vertices b = true) :
    ∃ id, (ensureEdge g a b).1 = .ok id ∧
      (ensureEdge (ensureEdge g a b).2 b a).1 = .ok id ∧
      (ensureEdge (ensureEdge g a b).2 b a).2.edges.length ≤ g.edges.length + 1 := by
  unfold ensureEdge
  rcases hfind : findEdgeByVertices g a b with - | e
  · dsimp only
    obtain ⟨hok, hedges, hpair, -⟩ := addEdge_ok g a b 0 ha hb
    have hf2 : findEdgeByVertices (addEdge g a b 0).2 b a = some g.nextId := by
      unfold findEdgeByVertices
      rw [hpair, hashVertexPair_comm b a, alGet_alSet_self]
    rw [hf2]
    dsimp only
    refine ⟨g.nextId, hok, rfl, ?_⟩
    rw [hedges]
    exact length_alSet_le _ _ _
  · dsimp only
    have hf2 : findEdgeByVertices g b a = some e := by
      unfold findEdgeByVertices at hfind ⊢
      rw [hashVertexPair_comm b a]
      exact hfind
    rw [hf2]
    dsimp only
    exact ⟨e, rfl, rfl, by omega⟩

/-- Two registered vertices for the C2 witness. -/
def gTwoVerts : PuzzleGrid := addVertex (addVertex emptyPuzzleGrid 0) 1

/-- C2 witness: the double-ensure property at vertices 0 and 1 of a
two-vertex grid. -/
theorem ensureEdge_twice_same_id_witness :
    alHasKey gTwoVerts.vertices 0 = true ∧ alHasKey gTwoVerts.vertices 1 = true ∧
      ∃ id, (ensureEdge gTwoVerts 0 1).1 = .ok id ∧
        (ensureEdge (ensureEdge gTwoVerts 0 1).2 1 0).1 = .ok id ∧
        (ensureEdge (ensureEdge gTwoVerts 0 1).2 1 0).2.edges.length ≤
          gTwoVerts.edges.length + 1 :=
  ⟨by decide, by decide, ensureEdge_twice_same_id gTwoVerts 0 1 (by decide) (by decide)⟩

/-- Claim C8: `findEdgeByVertices` is symmetric in its two arguments over
the supported ID range 0..65535; after `addEdge(a, b)` both argument
orders return the new edge's ID; and when the pair index holds no entry
for the pair, both orders return null. -/
theorem findEdgeByVertices_symm (g : PuzzleGrid) (a b : Nat)
    (ha : a ≤ 65535) (hb : b ≤ 65535) :
    findEdgeByVertices g a b = findEdgeByVertices g b a ∧
      (alHasKey g.vertices a = true → alHasKey g.vertices b = true →
        (addEdge g a b 0).1 = .ok g.nextId ∧
          findEdgeByVertices (addEdge g a b 0).2 a b = some g.nextId ∧
          findEdgeByVertices (addEdge g a b 0).2 b a = some g.nextId) ∧
      (alGet g.vertexPairToEdge (hashVertexPair a b) = none →
        findEdgeByVertices g a b = none ∧ findEdgeByVertices g b a = none) := by
  refine ⟨?_, ?_, ?_⟩
  · unfold findEdgeByVertices
    rw [hashVertexPair_comm a b]
  · intro hra hrb
    obtain ⟨hok, -, hpair, -⟩ := addEdge_ok g a b 0 hra hrb
    refine ⟨hok, ?_, ?_⟩
    · unfold findEdgeByVertices
      rw [hpair, alGet_alSet_self]
    · unfold findEdgeByVertices
      rw [hpair, hashVertexPair_comm b a, alGet_alSet_self]
  · intro hnone
    unfold findEdgeByVertices
    rw [hashVertexPair_comm b a]
    exact ⟨hnone, hnone⟩

/-- C8 witness: symmetry, post-`addEdge` lookup and the empty-index case at
vertices 0 and 1 of a two-vertex grid. -/
theorem findEdgeByVertices_symm_witness :
    (0 : Nat) ≤ 65535 ∧ (1 : Nat) ≤ 65535 ∧
      (findEdgeByVertices gTwoVerts 0 1 = findEdgeByVertices gTwoVerts 1 0 ∧
        (alHasKey gTwoVerts.vertices 0 = true → alHasKey gTwoVerts.vertices 1 = true →
          (addEdge gTwoVerts 0 1 0).1 = .ok gTwoVerts.nextId ∧
            findEdgeByVertices (addEdge gTwoVerts 0 1 0).2 0 1 = some gTwoVerts.nextId ∧
            findEdgeByVertices (addEdge gTwoVerts 0 1 0).2 1 0 = some gTwoVerts.nextId) ∧
        (alGet gTwoVerts.vertexPairToEdge (hashVertexPair 0 1) = none →
          findEdgeByVertices gTwoVerts 0 1 = none ∧ findEdgeByVertices gTwoVerts 1 0 = none)) :=
  ⟨by decide, by decide, findEdgeByVertices_symm gTwoVerts 0 1 (by decide) (by decide)⟩

/-- One registered vertex, for the C4 counterexample. -/
def gOneVert : PuzzleGrid := addVertex emptyPuzzleGrid 0

/-- C4 counterexample: `addEdge(0, 1)` with vertex 1 unregistered fails,
but the topology is not left unchanged — the edge map and the vertex-pair
index both gained an entry before the failure. -/
theorem c4_addEdge_partial_mutation_counterexample :
    (addEdge gOneVert 0 1 0).1 = .error .typeError ∧
      ¬ (addEdge gOneVert 0 1 0).2.edges = gOneVert.edges ∧
      ¬ (addEdge gOneVert 0 1 0).2.vertexPairToEdge = gOneVert.vertexPairToEdge := by
  decide

/-- Claim C4, amended: `addEdge` with an unregistered endpoint fails (with
a TypeError, there is no explicit check), but the failure leaves the
topology changed: the edge record and the vertex-pair index entry are
already added and the ID counter advanced when the incidence update
throws. -/
theorem addEdge_unregistered_partial (g : PuzzleGrid) (v1 v2 : Nat)
    (h : alHasKey g.vertices v1 = false ∨ alHasKey g.vertices v2 = false) :
    (addEdge g v1 v2 0).1 = .error .typeError ∧
      alGet (addEdge g v1 v2 0).2.edges g.nextId = some ⟨v1, v2, [], 0⟩ ∧
      alGet (addEdge g v1 v2 0).2.vertexPairToEdge (hashVertexPair v1 v2) = some g.nextId ∧
      (addEdge g v1 v2 0).2.nextId = g.nextId + 1 := by
  unfold addEdge
  dsimp only
  rcases hv1 : alGet g.vertices v1 with - | vx1
  · exact ⟨rfl, alGet_alSet_self _ _ _, alGet_alSet_self _ _ _, rfl⟩
  · dsimp only
    have hv2n : alGet g.vertices v2 = none := by
      rcases h with h | h
      · unfold alHasKey at h
        rw [hv1] at h
        cases h
      · unfold alHasKey at h
        rcases hx : alGet g.vertices v2 with - | vy
        · rfl
        · rw [hx] at h
          cases h
    have hne : v2 ≠ v1 := by
      intro he
      rw [he, hv1] at hv2n
      cases hv2n
    rw [alGet_alSet_ne _ _ _ _ fun hh => hne hh.symm, hv2n]
    exact ⟨rfl, alGet_alSet_self _ _ _, alGet_alSet_self _ _ _, rfl⟩

/-- C4 witness: the amended claim applied to `addEdge(0, 1)` on a grid that
registers only vertex 0. -/
theorem addEdge_unregistered_partial_witness :
    alHasKey gOneVert.vertices 1 = false ∧
      ((addEdge gOneVert 0 1 0).1 = .error .typeError ∧
        alGet (addEdge gOneVert 0 1 0).2.edges gOneVert.nextId = some ⟨0, 1, [], 0⟩ ∧
        alGet (addEdge gOneVert 0 1 0).2.vertexPairToEdge (hashVertexPair 0 1) =
          some gOneVert.nextId ∧
        (addEdge gOneVert 0 1 0).2.nextId = gOneVert.nextId + 1) :=
  ⟨by decide, addEdge_unregistered_partial gOneVert 0 1 (Or.inr (by decide))⟩

/-- An overlay that already stores valid puzzle data for grid "a". -/
def gStoredA : PuzzleGrid := (setPuzzleData emptyPuzzleGrid ⟨"a", []⟩ (some "a")).2

/-- C3 counterexample: a `setPuzzleData` call that fails the grid-ID check
does not leave the previously stored puzzle data untouched — the new,
mismatching data is already stored when the error is thrown (only `gridId`
keeps its prior value). -/
theorem c3_setPuzzleData_overwrites_counterexample :
    gStoredA.puzzleData = some ⟨"a", []⟩ ∧
      (setPuzzleData gStoredA ⟨"b", []⟩ (some "a")).1 = .error (.gridMismatch "a" "b") ∧
      ¬ (setPuzzleData gStoredA ⟨"b", []⟩ (some "a")).2.puzzleData = gStoredA.puzzleData := by
  decide

/-- Claim C3, amended: `setPuzzleData` fails exactly when a non-empty
`expectedGridId` is provided that differs from `puzzleData.gridId` (the
empty string is falsy in the source and skips the check); the stored
`gridId` is left unchanged on failure, but `this.puzzleData` has already
been overwritten with the new puzzle data before the check runs, so the
prior stored data is not preserved. -/
theorem setPuzzleData_spec (g : PuzzleGrid) (pd : PuzzleData) (exp : Option String) :
    ((∃ err, (setPuzzleData g pd exp).1 = .error err) ↔
        ∃ s, exp = some s ∧ s ≠ "" ∧ pd.gridId ≠ s) ∧
      (setPuzzleData g pd exp).2.puzzleData = some pd ∧
      (∀ err, (setPuzzleData g pd exp).1 = .error err →
        (setPuzzleData g pd exp).2.gridId = g.gridId) := by
  unfold setPuzzleData
  rcases exp with - | s
  · dsimp only
    refine ⟨?_, rfl, ?_⟩
    · constructor
      · intro h
        obtain ⟨err, herr⟩ := h
        cases herr
      · intro h
        obtain ⟨s, hs, -⟩ := h
        cases hs
    · intro err herr
      cases herr
  · dsimp only
    by_cases hc : s ≠ "" ∧ pd.gridId ≠ s
    · rw [if_pos hc]
      refine ⟨?_, rfl, fun _ _ => rfl⟩
      constructor
      · intro _
        exact ⟨s, rfl, hc.1, hc.2⟩
      · intro _
        exact ⟨.gridMismatch s pd.gridId, rfl⟩
    · rw [if_neg hc]
      refine ⟨?_, rfl, ?_⟩
      · constructor
        · intro h
          obtain ⟨err, herr⟩ := h
          cases herr
        · intro h
          obtain ⟨s2, hs2, hne, hgr⟩ := h
          injection hs2 with hs2
          subst hs2
          exact absurd ⟨hne, hgr⟩ hc
      · intro err herr
        cases herr

/-- C3 witness: the amended behavior at a concrete failing call — the
stored gridId survives, the stored puzzle data is overwritten. -/
theorem setPuzzleData_spec_witness :
    (setPuzzleData gStoredA ⟨"b", []⟩ (some "a")).2.gridId = gStoredA.gridId ∧
      (setPuzzleData gStoredA ⟨"b", []⟩ (some "a")).2.puzzleData = some ⟨"b", []⟩ := by
  refine ⟨?_, (setPuzzleData_spec gStoredA ⟨"b", []⟩ (some "a")).2.1⟩
  exact (setPuzzleData_spec gStoredA ⟨"b", []⟩ (some "a")).2.2 (.gridMismatch "a" "b") (by decide)

/-- Claim C10: `getCurrentPuzzle` throws exactly when no puzzle data is
set; it performs no bounds check and `setPuzzleData` leaves
`currentPuzzleIndex` unchanged, so with puzzle data set and the index at or
past the end of the puzzles array it returns `undefined` (`none`) rather
than raising an index error. -/
theorem getCurrentPuzzle_spec (g : PuzzleGrid) (pd : PuzzleData) (exp : Option String) :
    ((∃ err, getCurrentPuzzle g = .error err) ↔ g.puzzleData = none) ∧
      (setPuzzleData g pd exp).2.currentPuzzleIndex = g.currentPuzzleIndex ∧
      (∀ pd0, g.puzzleData = some pd0 → pd0.puzzles.length ≤ g.currentPuzzleIndex →
        getCurrentPuzzle g = .ok none) := by
  refine ⟨?_, ?_, ?_⟩
  · unfold getCurrentPuzzle
    rcases hpd : g.puzzleData with - | pd0
    · exact ⟨fun _ => rfl, fun _ => ⟨.noPuzzleData, rfl⟩⟩
    · constructor
      · intro h
        obtain ⟨err, herr⟩ := h
        cases herr
      · intro h
        cases h
  · unfold setPuzzleData
    rcases exp with - | s
    · rfl
    · dsimp only
      by_cases hc : s ≠ "" ∧ pd.gridId ≠ s
      · rw [if_pos hc]
      · rw [if_neg hc]
  · intro pd0 hpd0 hlen
    unfold getCurrentPuzzle
    rw [hpd0]
    dsimp only
    rw [List.get?_eq_none.mpr hlen]

/-- Overlay whose two-puzzle data was replaced by one-puzzle data while the
current index was 1: the C10 scenario. -/
def gShrunk : PuzzleGrid :=
  (setPuzzleData
    (setCurrentPuzzle
      (setPuzzleData emptyPuzzleGrid ⟨"g", [⟨none, none⟩, ⟨none, none⟩]⟩ none).2 1).2
    ⟨"g", [⟨none, none⟩]⟩ none).2

/-- C10 witness: on the shrunk overlay `getCurrentPuzzle` returns
`undefined` rather than raising. -/
theorem getCurrentPuzzle_spec_witness :
    gShrunk.puzzleData = some ⟨"g", [⟨none, none⟩]⟩ ∧ gShrunk.currentPuzzleIndex = 1 ∧
      getCurrentPuzzle gShrunk = .ok none :=
  ⟨by decide, by decide,
    (getCurrentPuzzle_spec gShrunk ⟨"g", []⟩ none).2.2 ⟨"g", [⟨none, none⟩]⟩
      (by decide) (by decide)⟩

/-- Membership after `alSet`: an entry is the new pair or an old entry. -/
theorem mem_alSet {α : Type} {l : List (Nat × α)} {k : Nat} {v : α} {p : Nat × α}
    (h : p ∈ alSet l k v) : p = (k, v) ∨ p ∈ l := by
  induction l with
  | nil =>
    simp only [alSet, List.mem_singleton] at h
    exact Or.inl h
  | cons q rest ih =>
    obtain ⟨k0, v0⟩ := q
    by_cases h0 : k0 = k
    · subst h0
      simp only [alSet, if_pos rfl] at h
      rcases List.mem_cons.mp h with h | h
      · exact Or.inl h
      · exact Or.inr (List.mem_cons_of_mem _ h)
    · simp only [alSet, if_neg h0] at h
      rcases List.mem_cons.mp h with h | h
      · exact Or.inr (h ▸ List.mem_cons_self _ _)
      · rcases ih h with h | h
        · exact Or.inl h
        · exact Or.inr (List.mem_cons_of_mem _ h)

/-- An existing key still resolves after any `alSet`. -/
theorem alGet_isSome_alSet {α : Type} (l : List (Nat × α)) (k k' : Nat) (v : α)
    (h : (alGet l k').isSome = true) : (alGet (alSet l k v) k').isSome = true := by
  by_cases he : k = k'
  · subst he
    rw [alGet_alSet_self]
    rfl
  · rw [alGet_alSet_ne _ _ _ _ he]
    exact h

/-- An in-range `getD` is a member. -/
theorem getD_mem (l : List Nat) : ∀ i d : Nat, i < l.length → l.getD i d ∈ l := by
  induction l with
  | nil =>
    intro i d h
    simp at h
  | cons x xs ih =>
    intro i d h
    cases i with
    | zero => simp
    | succ n =>
      simp only [List.getD_cons_succ]
      exact List.mem_cons_of_mem _ (ih n d (by simpa using h))

/-- Validity of the vertex-pair index: every index entry resolves to an
edge of the store, as the `addEdge`/`addFace` construction maintains. -/
def PairIndexOK (g : PuzzleGrid) : Prop :=
  ∀ p ∈ g.vertexPairToEdge, (alGet g.edges p.2).isSome = true

instance (g : PuzzleGrid) : Decidable (PairIndexOK g) := by
  unfold PairIndexOK
  infer_instance

/-- `ensureEdge` on registered endpoints succeeds, yields a resolvable edge
ID, and preserves registration and index validity. -/
theorem ensureEdge_ok_invariants (g : PuzzleGrid) (a b : Nat)
    (ha : alHasKey g.vertices a = true) (hb : alHasKey g.vertices b = true)
    (hpi : PairIndexOK g) :
    ∃ eid, (ensureEdge g a b).1 = .ok eid ∧
      (alGet (ensureEdge g a b).2.edges eid).isSome = true ∧
      PairIndexOK (ensureEdge g a b).2 ∧
      (∀ v, alHasKey g.vertices v = true → alHasKey (ensureEdge g a b).2.vertices v = true) := by
  unfold ensureEdge
  rcases hfind : findEdgeByVertices g a b with - | e
  · dsimp only
    obtain ⟨hok, hedges, hpair, hverts⟩ := addEdge_ok g a b 0 ha hb
    refine ⟨g.nextId, hok, ?_, ?_, hverts⟩
    · rw [hedges, alGet_alSet_self]
      rfl
    · intro p hp
      rw [hpair] at hp
      rcases mem_alSet hp with hp | hp
      · rw [hp, hedges]
        dsimp only
        rw [alGet_alSet_self]
        rfl
      · rw [hedges]
        exact alGet_isSome_alSet _ _ _ _ (hpi p hp)
  · dsimp only
    refine ⟨e, rfl, ?_, hpi, fun v hv => hv⟩
    unfold findEdgeByVertices at hfind
    exact hpi _ (alGet_mem hfind)

/-- The edge loop of `addFace` succeeds on registered vertices with a valid
pair index, preserving registration. -/
theorem addFaceEdges_ok (vertexIDs : List Nat) (id : Nat) :
    ∀ is : List Nat, (∀ i ∈ is, i < vertexIDs.length) →
      ∀ (g : PuzzleGrid) (acc : List Nat),
        (∀ v ∈ vertexIDs, alHasKey g.vertices v = true) → PairIndexOK g →
        ∃ eids g2, addFaceEdges vertexIDs id g acc is = (.ok eids, g2) ∧
          (∀ v ∈ vertexIDs, alHasKey g2.vertices v = true) := by
  intro is
  induction is with
  | nil =>
    intro _ g acc hreg _
    exact ⟨acc, g, rfl, hreg⟩
  | cons i rest ih =>
    intro hranges g acc hreg hpi
    have hilen : i < vertexIDs.length := hranges i (List.mem_cons_self _ _)
    have hlenpos : 0 < vertexIDs.length := by omega
    have hv1 : vertexIDs.getD i 0 ∈ vertexIDs := getD_mem _ i 0 hilen
    have hv2 : vertexIDs.getD ((i + 1) % vertexIDs.length) 0 ∈ vertexIDs :=
      getD_mem _ _ 0 (Nat.mod_lt _ hlenpos)
    simp only [addFaceEdges]
    obtain ⟨eid, hok, hsome, hpi1, hverts1⟩ :=
      ensureEdge_ok_invariants g (vertexIDs.getD i 0)
        (vertexIDs.getD ((i + 1) % vertexIDs.length) 0) (hreg _ hv1) (hreg _ hv2) hpi
    rcases hee : ensureEdge g (vertexIDs.getD i 0)
        (vertexIDs.getD ((i + 1) % vertexIDs.length) 0) with ⟨r, g1⟩
    rw [hee] at hok hsome hpi1 hverts1
    cases r with
    | error err =>
      cases hok
    | ok eid2 =>
      injection hok with hok
      subst hok
      dsimp only at hsome ⊢
      obtain ⟨e, he⟩ := Option.isSome_iff_exists.mp hsome
      rw [he]
      dsimp only
      refine ih (fun j hj => hranges j (List.mem_cons_of_mem _ hj)) _ _ ?_ ?_
      · intro v hv
        exact hverts1 v (hreg v hv)
      · intro p hp
        exact alGet_isSome_alSet _ _ _ _ (hpi1 p hp)

/-- The vertex loop of `addFace` succeeds on registered vertices and leaves
the face map alone. -/
theorem addFaceVerts_ok (id : Nat) :
    ∀ (vs : List Nat) (g : PuzzleGrid),
      (∀ v ∈ vs, alHasKey g.vertices v = true) →
      ∃ g2, addFaceVerts id g vs = (.ok (), g2) ∧ g2.faces = g.faces := by
  intro vs
  induction vs with
  | nil =>
    intro g _
    exact ⟨g, rfl, rfl⟩
  | cons v rest ih =>
    intro g hreg
    have hv := hreg v (List.mem_cons_self _ _)
    unfold alHasKey at hv
    obtain ⟨vx, hvx⟩ := Option.isSome_iff_exists.mp hv
    simp only [addFaceVerts]
    rw [hvx]
    dsimp only
    obtain ⟨g2, heq, hfaces⟩ := ih
      { g with vertices := alSet g.vertices v { vx with faceIDs := sAdd vx.faceIDs id } }
      (fun w hw => by
        have hw2 := hreg w (List.mem_cons_of_mem _ hw)
        unfold alHasKey at hw2 ⊢
        dsimp only
        exact alGet_isSome_alSet _ _ _ _ hw2)
    exact ⟨g2, heq, hfaces⟩

/-- `addFace` on registered vertices succeeds — for any number of vertex
IDs — and records the face under its ID. -/
theorem addFace_ok (g : PuzzleGrid) (vids : List Nat) (ix : Nat) (clue : Int) (id : Nat)
    (hreg : ∀ v ∈ vids, alHasKey g.vertices v = true) (hpi : PairIndexOK g) :
    (addFace g vids ix clue id).1 = .ok () ∧
      ∃ f, alGet (addFace g vids ix clue id).2.faces id = some f ∧
        f.vertexIDs = vids ∧ f.index = ix ∧ f.clue = clue := by
  unfold addFace
  obtain ⟨eids, g2, heq, hreg2⟩ := addFaceEdges_ok vids id (List.range vids.length)
    (fun i hi => List.mem_range.mp hi) g [] hreg hpi
  rw [heq]
  dsimp only
  obtain ⟨g3, heq3, hfaces3⟩ := addFaceVerts_ok id vids
    { g2 with faces := alSet g2.faces id ⟨vids, eids, ix, clue⟩ } (fun v hv => hreg2 v hv)
  rw [heq3]
  refine ⟨rfl, ⟨vids, eids, ix, clue⟩, ?_, rfl, rfl, rfl⟩
  dsimp only
  rw [hfaces3]
  exact alGet_alSet_self _ _ _

/-- The face loop of `createPolyhedron` rejects any face list containing a
face with fewer than 3 vertices. -/
theorem buildFaces_short_fails :
    ∀ (faces : List (List Nat)) (g : PuzzleGrid) (i : Nat),
      (∃ f ∈ faces, f.length < 3) → ∃ err, buildFaces g faces i = .error err := by
  intro faces
  induction faces with
  | nil =>
    intro g i h
    obtain ⟨f, hf, -⟩ := h
    simp at hf
  | cons f0 rest ih =>
    intro g i h
    simp only [buildFaces]
    by_cases h0 : f0.length < 3
    · rw [if_pos h0]
      exact ⟨_, rfl⟩
    · rw [if_neg h0]
      rcases haf : addFace g f0 i (-1) i with ⟨r, g1⟩
      cases r with
      | error err => exact ⟨err, rfl⟩
      | ok u =>
        apply ih
        obtain ⟨f, hf, hflen⟩ := h
        rcases List.mem_cons.mp hf with hf | hf
        · subst hf
          omega
        · exact ⟨f, hf, hflen⟩

/-- C5 counterexample: a direct `Grid.addFace` call with an empty vertex
list does not fail — it adds the degenerate face to the topology. -/
theorem c5_addFace_no_arity_check_counterexample :
    (addFace emptyPuzzleGrid [] 0 (-1) 7).1 = .ok () ∧
      alGet (addFace emptyPuzzleGrid [] 0 (-1) 7).2.faces 7 = some ⟨[], [], 0, -1⟩ := by
  decide

/-- Claim C5, amended: the fewer-than-3-vertices rejection happens in
`createPolyhedron`, which throws before invoking `addFace` for such a
face, so no face enters a topology through polyhedron construction;
`Grid.addFace` itself performs no arity check — called directly with fewer
than 3 registered vertex IDs (over a valid pair index) it succeeds and
records the degenerate face. -/
theorem addFace_degenerate_spec (numVertices : Nat) (faces : List (List Nat))
    (g : PuzzleGrid) (vids : List Nat) (ix : Nat) (clue : Int) (id : Nat)
    (hshort : ∃ f ∈ faces, f.length < 3) (hlen : vids.length < 3)
    (hreg : ∀ v ∈ vids, alHasKey g.vertices v = true) (hpi : PairIndexOK g) :
    (∃ err, createPolyhedron numVertices faces = .error err) ∧
      (addFace g vids ix clue id).1 = .ok () ∧
      ∃ f, alGet (addFace g vids ix clue id).2.faces id = some f ∧ f.vertexIDs = vids := by
  refine ⟨buildFaces_short_fails faces _ 0 hshort, ?_⟩
  obtain ⟨hok, f, hget, hvids, -, -⟩ := addFace_ok g vids ix clue id hreg hpi
  exact ⟨hok, f, hget, hvids⟩

/-- C5 witness: `createPolyhedron` on a two-vertex face list fails, while a
direct `addFace` with the same two registered vertices succeeds. -/
theorem addFace_degenerate_spec_witness :
    (∃ f ∈ ([[0, 1]] : List (List Nat)), f.length < 3) ∧ ([0, 1] : List Nat).length < 3 ∧
      ((∃ err, createPolyhedron 2 [[0, 1]] = .error err) ∧
        (addFace gTwoVerts [0, 1] 0 (-1) 5).1 = .ok () ∧
        ∃ f, alGet (addFace gTwoVerts [0, 1] 0 (-1) 5).2.faces 5 = some f ∧
          f.vertexIDs = [0, 1]) :=
  ⟨⟨[0, 1], by decide⟩, by decide,
    addFace_degenerate_spec 2 [[0, 1]] gTwoVerts [0, 1] 0 (-1) 5
      ⟨[0, 1], by decide⟩ (by decide) (by decide) (by decide)⟩

/-- Claim C6: with puzzle data set and a current puzzle selected,
`validatePuzzleSolution` throws when the solution is missing or not an
array, and otherwise throws exactly when its length is below 3 or above
the vertex count, or it contains a duplicate vertex, or a vertex absent
from the topology, or some consecutive pair (wrapping around last to
first) has no edge; otherwise it returns normally. -/
theorem validatePuzzleSolution_spec (g : PuzzleGrid) (pd : PuzzleData) (puzzle : Puzzle)
    (hpd : g.puzzleData = some pd)
    (hcur : pd.puzzles.get? g.currentPuzzleIndex = some puzzle) :
    (puzzle.solution = none → ∃ err, validatePuzzleSolution g = .error err) ∧
      ∀ sol, puzzle.solution = some sol →
        ((∃ err, validatePuzzleSolution g = .error err) ↔
          sol.length < 3 ∨ sol.length > g.vertices.length ∨ ¬ sol.Nodup ∨
            (∃ v ∈ sol, alHasKey g.vertices v = false) ∨
            ∃ i < sol.length,
              findEdgeByVertices g (sol.getD i 0) (sol.getD ((i + 1) % sol.length) 0) = none) := by
  unfold validatePuzzleSolution
  rw [hpd]
  dsimp only
  rw [hcur]
  dsimp only
  constructor
  · intro hnone
    rw [hnone]
    exact ⟨.missingSolution, rfl⟩
  · intro sol hsol
    rw [hsol]
    dsimp only
    by_cases h1 : sol.length < 3 ∨ sol.length > g.vertices.length
    · rw [if_pos h1]
      constructor
      · intro _
        rcases h1 with h1 | h1
        · exact Or.inl h1
        · exact Or.inr (Or.inl h1)
      · intro _
        exact ⟨_, rfl⟩
    · rw [if_neg h1]
      by_cases h2 : ¬ sol.Nodup
      · rw [if_pos h2]
        exact ⟨fun _ => Or.inr (Or.inr (Or.inl h2)), fun _ => ⟨_, rfl⟩⟩
      · rw [if_neg h2]
        rcases h3 : sol.find? (fun v => ! alHasKey g.vertices v) with - | v
        · have hno4 : ¬ ∃ v ∈ sol, alHasKey g.vertices v = false := by
            rw [List.find?_eq_none] at h3
            rintro ⟨v, hv, hfk⟩
            exact h3 v hv (by rw [hfk]; rfl)
          rcases h4 : (List.range sol.length).find? (fun i =>
              (findEdgeByVertices g (sol.getD i 0)
                (sol.getD ((i + 1) % sol.length) 0)).isNone) with - | i
          · have hno5 : ¬ ∃ i < sol.length,
                findEdgeByVertices g (sol.getD i 0) (sol.getD ((i + 1) % sol.length) 0) = none := by
              rw [List.find?_eq_none] at h4
              rintro ⟨i, hi, hnone⟩
              exact h4 i (List.mem_range.mpr hi) (by rw [hnone]; rfl)
            constructor
            · rintro ⟨err, herr⟩
              cases herr
            · intro h
              rcases h with h | h | h | h | h
              · exact absurd (Or.inl h) h1
              · exact absurd (Or.inr h) h1
              · exact absurd h h2
              · exact absurd h hno4
              · exact absurd h hno5
          · have hi : i < sol.length := List.mem_range.mp (List.mem_of_find?_eq_some h4)
            have hn : findEdgeByVertices g (sol.getD i 0)
                (sol.getD ((i + 1) % sol.length) 0) = none := by
              have := List.find?_some h4
              simpa [Option.isNone_iff_eq_none] using this
            exact ⟨fun _ => Or.inr (Or.inr (Or.inr (Or.inr ⟨i, hi, hn⟩))), fun _ => ⟨_, rfl⟩⟩
        · have hv : v ∈ sol := List.mem_of_find?_eq_some h3
          have hfk : alHasKey g.vertices v = false := by
            have := List.find?_some h3
            simpa using this
          exact ⟨fun _ => Or.inr (Or.inr (Or.inr (Or.inl ⟨v, hv, hfk⟩))), fun _ => ⟨_, rfl⟩⟩

/-- Triangle topology with its pair index populated and a valid reference
solution [0, 1, 2], for the C6 witness. -/
def triSolGrid : PuzzleGrid :=
  ⟨[(0, ⟨[0, 2], []⟩), (1, ⟨[0, 1], []⟩), (2, ⟨[1, 2], []⟩)],
   [(0, ⟨0, 1, [], 0⟩), (1, ⟨1, 2, [], 0⟩), (2, ⟨2, 0, [], 0⟩)],
   [], [(1, 0), (65538, 1), (2, 2)], 3,
   some ⟨"tri", [⟨none, some [0, 1, 2]⟩]⟩, 0, some "tri", []⟩

/-- C6 witness: the valid triangle solution passes validation — the spec
instantiated at solution [0, 1, 2] shows no error is thrown. -/
theorem validatePuzzleSolution_spec_witness :
    triSolGrid.puzzleData = some ⟨"tri", [⟨none, some [0, 1, 2]⟩]⟩ ∧
      ¬ ∃ err, validatePuzzleSolution triSolGrid = .error err := by
  refine ⟨by decide, ?_⟩
  have h := (validatePuzzleSolution_spec triSolGrid ⟨"tri", [⟨none, some [0, 1, 2]⟩]⟩
    ⟨none, some [0, 1, 2]⟩ (by decide) (by decide)).2 [0, 1, 2] (by decide)
  intro he
  exact (by decide :
    ¬ (([0, 1, 2] : List Nat).length < 3 ∨
      ([0, 1, 2] : List Nat).length > triSolGrid.vertices.length ∨
      ¬ ([0, 1, 2] : List Nat).Nodup ∨
      (∃ v ∈ ([0, 1, 2] : List Nat), alHasKey triSolGrid.vertices v = false) ∨
      ∃ i < ([0, 1, 2] : List Nat).length,
        findEdgeByVertices triSolGrid (([0, 1, 2] : List Nat).getD i 0)
          (([0, 1, 2] : List Nat).getD ((i + 1) % ([0, 1, 2] : List Nat).length) 0) = none))
    (h.mp he)

/-- Clue assignment the loop performs on one face entry:
`clues[face.metadata.index]`, or -1 past the end of the clues array. -/
def applyClueTo (cs : List Int) (p : Nat × Face) : Nat × Face :=
  (p.1, { p.2 with clue := cs.getD p.2.index (-1) })

/-- Invalid assigned clue for a face entry: present (not -1) but outside
`[0, numEdgesOfFace]`. -/
def BadClueFor (cs : List Int) (p : Nat × Face) : Prop :=
  cs.getD p.2.index (-1) ≠ -1 ∧
    (cs.getD p.2.index (-1) < 0 ∨ cs.getD p.2.index (-1) > (p.2.edgeIDs.length : Int))

instance (cs : List Int) (p : Nat × Face) : Decidable (BadClueFor cs p) := by
  unfold BadClueFor
  infer_instance

/-- Clue assignment is idempotent on a face entry: the index and edge list
are untouched, so the second assignment writes the same value. -/
theorem applyClueTo_idem (cs : List Int) : applyClueTo cs ∘ applyClueTo cs = applyClueTo cs :=
  funext fun _ => rfl

/-- A reassigned face entry is invalid exactly when the original is. -/
theorem badClueFor_applyClueTo (cs : List Int) (p : Nat × Face) :
    BadClueFor cs (applyClueTo cs p) ↔ BadClueFor cs p := Iff.rfl

/-- The clue loop succeeds and assigns every face its clue when no face
has an invalid clue. -/
theorem applyCluesLoop_ok (cs : List Int) :
    ∀ fs : List (Nat × Face), (∀ p ∈ fs, ¬ BadClueFor cs p) →
      applyCluesLoop cs fs = (.ok (), fs.map (applyClueTo cs)) := by
  intro fs
  induction fs with
  | nil => intro _; rfl
  | cons q rest ih =>
    intro h
    obtain ⟨fid, face⟩ := q
    simp only [applyCluesLoop]
    have hraw : ¬ (cs.getD face.index (-1) ≠ -1 ∧
        (cs.getD face.index (-1) < 0 ∨ cs.getD face.index (-1) > (face.edgeIDs.length : Int))) :=
      h _ (List.mem_cons_self _ _)
    rw [if_neg hraw]
    rw [ih fun p hp => h p (List.mem_cons_of_mem _ hp)]
    rfl

/-- An invalid clue somewhere makes the clue loop fail. -/
theorem applyCluesLoop_bad (cs : List Int) :
    ∀ fs : List (Nat × Face), (∃ p ∈ fs, BadClueFor cs p) →
      ∃ err, (applyCluesLoop cs fs).1 = .error err := by
  intro fs
  induction fs with
  | nil =>
    rintro ⟨p, hp, -⟩
    simp at hp
  | cons q rest ih =>
    rintro ⟨p, hp, hbad⟩
    obtain ⟨fid, face⟩ := q
    simp only [applyCluesLoop]
    by_cases hh : BadClueFor cs (fid, face)
    · have hraw : cs.getD face.index (-1) ≠ -1 ∧
          (cs.getD face.index (-1) < 0 ∨ cs.getD face.index (-1) > (face.edgeIDs.length : Int)) :=
        hh
      rw [if_pos hraw]
      exact ⟨_, rfl⟩
    · have hraw : ¬ (cs.getD face.index (-1) ≠ -1 ∧
          (cs.getD face.index (-1) < 0 ∨ cs.getD face.index (-1) > (face.edgeIDs.length : Int))) :=
        hh
      rw [if_neg hraw]
      dsimp only
      apply ih
      rcases List.mem_cons.mp hp with hp | hp
      · exact absurd (hp ▸ hbad) hh
      · exact ⟨p, hp, hbad⟩

/-- A clue-loop failure names an offending face's positional index and its
invalid clue value. -/
theorem applyCluesLoop_error_names (cs : List Int) :
    ∀ fs : List (Nat × Face), ∀ i : Nat, ∀ c : Int,
      (applyCluesLoop cs fs).1 = .error (.invalidClue i c) →
      ∃ p ∈ fs, p.2.index = i ∧ cs.getD p.2.index (-1) = c ∧ BadClueFor cs p := by
  intro fs
  induction fs with
  | nil =>
    intro i c h
    cases h
  | cons q rest ih =>
    intro i c h
    obtain ⟨fid, face⟩ := q
    simp only [applyCluesLoop] at h
    by_cases hh : BadClueFor cs (fid, face)
    · have hraw : cs.getD face.index (-1) ≠ -1 ∧
          (cs.getD face.index (-1) < 0 ∨ cs.getD face.index (-1) > (face.edgeIDs.length : Int)) :=
        hh
      rw [if_pos hraw] at h
      injection h with h
      injection h with h1 h2
      exact ⟨(fid, face), List.mem_cons_self _ _, h1, h2, hh⟩
    · have hraw : ¬ (cs.getD face.index (-1) ≠ -1 ∧
          (cs.getD face.index (-1) < 0 ∨ cs.getD face.index (-1) > (face.edgeIDs.length : Int))) :=
        hh
      rw [if_neg hraw] at h
      dsimp only at h
      obtain ⟨p, hp, hi, hc, hbad⟩ := ih i c h
      exact ⟨p, List.mem_cons_of_mem _ hp, hi, hc, hbad⟩

/-- Claim C7: for puzzle data whose clues array exists and is no longer
than the face count, `applyCurrentPuzzleClues` assigns each face
`clues[positional index]`, or -1 (no clue) for faces past the end of the
clues array, without error for such faces; it fails naming the offending
face and value exactly when some assigned clue is neither -1 nor an
integer in `[0, numEdgesOfFace]`; and a successful application is
idempotent. -/
theorem applyCurrentPuzzleClues_spec (g : PuzzleGrid) (pd : PuzzleData) (puzzle : Puzzle)
    (cs : List Int) (hpd : g.puzzleData = some pd)
    (hcur : pd.puzzles.get? g.currentPuzzleIndex = some puzzle)
    (hcs : puzzle.clues = some cs) (hlen : cs.length ≤ g.faces.length) :
    ((∃ err, (applyCurrentPuzzleClues g).1 = .error err) ↔ ∃ p ∈ g.faces, BadClueFor cs p) ∧
      ((∀ p ∈ g.faces, ¬ BadClueFor cs p) →
        applyCurrentPuzzleClues g = (.ok (), { g with faces := g.faces.map (applyClueTo cs) })) ∧
      (∀ i c, (applyCurrentPuzzleClues g).1 = .error (.invalidClue i c) →
        ∃ p ∈ g.faces, p.2.index = i ∧ cs.getD p.2.index (-1) = c ∧ BadClueFor cs p) ∧
      (∀ g2, applyCurrentPuzzleClues g = (.ok (), g2) →
        applyCurrentPuzzleClues g2 = (.ok (), g2)) := by
  have hbody : applyCurrentPuzzleClues g =
      ((applyCluesLoop cs g.faces).1, { g with faces := (applyCluesLoop cs g.faces).2 }) := by
    unfold applyCurrentPuzzleClues
    rw [hpd]
    dsimp only
    rw [hcur]
    dsimp only
    rw [hcs]
    dsimp only
    rw [if_neg (by omega)]
  refine ⟨?_, ?_, ?_, ?_⟩
  · rw [hbody]
    constructor
    · rintro ⟨err, herr⟩
      by_contra hno
      push_neg at hno
      rw [applyCluesLoop_ok cs g.faces hno] at herr
      cases herr
    · intro hex
      exact applyCluesLoop_bad cs g.faces hex
  · intro hno
    rw [hbody, applyCluesLoop_ok cs g.faces hno]
  · intro i c herr
    rw [hbody] at herr
    exact applyCluesLoop_error_names cs g.faces i c herr
  · intro g2 hok
    rw [hbody] at hok
    have hno : ∀ p ∈ g.faces, ¬ BadClueFor cs p := by
      intro p hp hbad
      obtain ⟨err, herr⟩ := applyCluesLoop_bad cs g.faces ⟨p, hp, hbad⟩
      have h1 : (applyCluesLoop cs g.faces).1 = .ok () := congrArg Prod.fst hok
      rw [h1] at herr
      cases herr
    have hloop := applyCluesLoop_ok cs g.faces hno
    rw [hloop] at hok
    have hg2 : g2 = { g with faces := g.faces.map (applyClueTo cs) } :=
      (congrArg Prod.snd hok).symm
    subst hg2
    have hbody2 : applyCurrentPuzzleClues { g with faces := g.faces.map (applyClueTo cs) } =
        ((applyCluesLoop cs (g.faces.map (applyClueTo cs))).1,
          { g with faces := (applyCluesLoop cs (g.faces.map (applyClueTo cs))).2 }) := by
      unfold applyCurrentPuzzleClues
      dsimp only
      rw [hpd]
      dsimp only
      rw [hcur]
      dsimp only
      rw [hcs]
      dsimp only
      rw [if_neg (by simp only [List.length_map]; omega)]
    rw [hbody2]
    have hno2 : ∀ p ∈ g.faces.map (applyClueTo cs), ¬ BadClueFor cs p := by
      intro p hp
      obtain ⟨q, hq, hqe⟩ := List.mem_map.mp hp
      rw [← hqe, badClueFor_applyClueTo]
      exact hno q hq
    rw [applyCluesLoop_ok cs _ hno2, List.map_map, applyClueTo_idem]

/-- Three-face overlay with clue array [2, -1, 0] — the specification's
clue round-trip example. -/
def threeFaceGrid : PuzzleGrid :=
  ⟨[], [], [(0, ⟨[0, 1, 2], [10, 11, 12], 0, -1⟩), (1, ⟨[1, 2, 3], [13, 14, 15], 1, -1⟩),
    (2, ⟨[2, 3, 4], [16, 17, 18], 2, -1⟩)],
   [], 0, some ⟨"three", [⟨some [2, -1, 0], none⟩]⟩, 0, some "three", []⟩

/-- C7 witness: applying [2, -1, 0] to the three-face overlay succeeds and
stores clues 2, -1, 0 on faces 0, 1, 2. -/
theorem applyCurrentPuzzleClues_spec_witness :
    threeFaceGrid.puzzleData = some ⟨"three", [⟨some [2, -1, 0], none⟩]⟩ ∧
      applyCurrentPuzzleClues threeFaceGrid =
        (.ok (), { threeFaceGrid with
          faces := threeFaceGrid.faces.map (applyClueTo [2, -1, 0]) }) :=
  ⟨by decide,
    (applyCurrentPuzzleClues_spec threeFaceGrid ⟨"three", [⟨some [2, -1, 0], none⟩]⟩
      ⟨some [2, -1, 0], none⟩ [2, -1, 0] (by decide) (by decide) (by decide)
      (by decide)).2.1 (by decide)⟩

/-- One-edge grid whose edge is in the unknown state but whose mesh is
still highlighted red from an earlier violation — the C9 failing input. -/
def highlightedGrid : PuzzleGrid :=
  ⟨[(0, ⟨[0], []⟩), (1, ⟨[0], []⟩)], [(0, ⟨0, 1, [], 0⟩)], [], [(1, 0)], 1,
   some ⟨"one", []⟩, 0, some "one", [(0, .errorColor)]⟩

/-- Claim C9 at the failing input: the checker itself leaves the topology
and every edge's userGuess untouched (in both modes), but
`clearEdgeHighlights` does not restore the display color — it assigns the
raw userGuess number 0 where the unknown display color belongs, because
the source writes `edgeMesh.material.color = edge.metadata.userGuess`. -/
theorem clearEdgeHighlights_raw_number_bug :
    (checkUserSolution highlightedGrid true none).2.edges = highlightedGrid.edges ∧
      (checkUserSolution highlightedGrid true none).2.vertices = highlightedGrid.vertices ∧
      (checkUserSolution highlightedGrid true none).2.faces = highlightedGrid.faces ∧
      (checkUserSolution highlightedGrid false (some 0)).2.edges = highlightedGrid.edges ∧
      (clearEdgeHighlights highlightedGrid).edgeMeshColors = [(0, .rawNumber 0)] ∧
      displayColorOfGuess 0 = .unknownColor ∧
      ¬ (JsColor.rawNumber 0) = displayColorOfGuess 0 := by
  decide

end Slither
